import Mathlib

/-!
# Daily link rotation: a model of `daily-links.js`

The script rotates link targets once per UTC day.  This file embeds its three
routines (`updateOnce` with the nested `shouldReplaceAnchor`, and
`registerDailyLinks`) as functions on an explicit page state and proves the
properties stated for them.

Modelling conventions.

* JavaScript strings are `String`; `trim`, `toLowerCase` and `startsWith` are
  computed on the character list.  `undefined` is `none`.
* An object such as `window.DAILY_LINKS` has own properties, listed in insertion
  order, whose values are arrays of strings, and a view of what a property read
  finds on its prototype chain.  `Object.keys` and `Object.assign` see the own
  properties only; the read `mapping[defaultGroup]` of line 55 sees both.
* The document is a tree: a forest of text nodes and elements, each element
  with the attributes the script reads or writes and with its child nodes.  The
  text content of an element is the concatenation of the text below it, and
  assigning `textContent` replaces the children by one text node.  All elements
  are HTML elements, for which assigning `href` never throws.
* `querySelectorAll` with the selector built at line 36 selects the elements
  whose `data-daily-group` attribute equals the key when the key has no double
  quote, backslash, line break or NUL, so that the selector text is that
  attribute test.  For any other key the selector engine of the platform, a field
  of the window, decides; it may throw `SyntaxError`.
* `new URL(raw, window.location.href)` belongs to the platform and is a field
  of the window; `none` stands for the constructor throwing.
* `Date.now()` is a natural number of milliseconds.
-/

namespace DailyLinks

/-! ## Strings -/

/-- Code points removed by `String.prototype.trim`: the ECMAScript `WhiteSpace`
and `LineTerminator` productions. -/
def isWhiteSpace (c : Char) : Bool :=
  let n := c.toNat
  n == 0x09 || n == 0x0A || n == 0x0B || n == 0x0C || n == 0x0D || n == 0x20 ||
  n == 0xA0 || n == 0x1680 || (0x2000 ≤ n && n ≤ 0x200A) || n == 0x2028 ||
  n == 0x2029 || n == 0x202F || n == 0x205F || n == 0x3000 || n == 0xFEFF

/-- Strip leading and trailing white space from a character list. -/
def trimChars (cs : List Char) : List Char :=
  ((cs.dropWhile isWhiteSpace).reverse.dropWhile isWhiteSpace).reverse

/-- The method `raw.trim()`. -/
def trim (s : String) : String := ⟨trimChars s.data⟩

/-- Lower-casing of one character.  ASCII capitals map to ASCII small letters;
U+0130 and U+212A are the only other code points whose lower case contains an
ASCII letter; every other code point is kept, since its lower case has no ASCII
character and the script only compares the result with ASCII text. -/
def lowerChar (c : Char) : List Char :=
  if 'A' ≤ c ∧ c ≤ 'Z' then [Char.ofNat (c.toNat + 32)]
  else if c.toNat = 0x130 then ['i', Char.ofNat 0x307]
  else if c.toNat = 0x212A then ['k']
  else [c]

/-- The method `s.toLowerCase()`. -/
def toLowerCase (s : String) : String := ⟨s.data.flatMap lowerChar⟩

/-- The method `s.startsWith(p)`. -/
def startsWith (s p : String) : Bool := p.data.isPrefixOf s.data

/-- The test `/^https?:\/\//.test(lower)` of line 77. -/
def isAbsoluteHttp (lower : String) : Bool :=
  startsWith lower "http://" || startsWith lower "https://"

/-- Conversion of a possibly undefined string to a DOM string, as performed
when a value is assigned to an attribute. -/
def toDOMString : Option String → String
  | some s => s
  | none => "undefined"

/-! ## The mapping object -/

/-- The object `window.DAILY_LINKS`: own properties in insertion order, each a
group name with its array of URLs.  A well-formed object has distinct keys;
property lookup reads the first entry of a key. -/
abbrev LinkMapping := List (String × List String)

/-- Distinct property names. -/
def WellFormed (m : LinkMapping) : Prop := (m.map Prod.fst).Nodup

instance (m : LinkMapping) : Decidable (WellFormed m) := by
  unfold WellFormed; infer_instance

/-- Property read `mapping[key]`; `none` is `undefined`. -/
def getProp : LinkMapping → String → Option (List String)
  | [], _ => none
  | (k, v) :: rest, key => if k = key then some v else getProp rest key

/-- Property write `target[key] = value`: an existing property keeps its
position, a new one is appended. -/
def setProp : LinkMapping → String → List String → LinkMapping
  | [], key, value => [(key, value)]
  | (k, v) :: rest, key, value =>
    if k = key then (k, value) :: rest else (k, v) :: setProp rest key value

/-- Value of a string of decimal digits, read left to right from `acc`. -/
def decimalValue : List Char → Nat → Option Nat
  | [], acc => some acc
  | c :: cs, acc =>
    if '0' ≤ c ∧ c ≤ '9' then decimalValue cs (10 * acc + (c.toNat - 48)) else none

/-- The array index a property name denotes, if it is the canonical decimal
form of an integer below `2^32 - 1`.  Such names are enumerated first. -/
def arrayIndex (key : String) : Option Nat :=
  match key.data with
  | [] => none
  | c :: cs =>
    if c = '0' ∧ cs ≠ [] then none
    else
      match decimalValue (c :: cs) 0 with
      | some n => if n < 4294967295 then some n else none
      | none => none

/-- The call `Object.keys(mapping)`: array-index names in ascending numeric
order, then the other names in insertion order. -/
def objectKeys (m : LinkMapping) : List String :=
  let keys := m.map Prod.fst
  (keys.filter fun k => (arrayIndex k).isSome).insertionSort
      (fun a b => (arrayIndex a).getD 0 ≤ (arrayIndex b).getD 0)
    ++ keys.filter fun k => !(arrayIndex k).isSome

/-- The double quote as a string. -/
def quote : String := String.singleton (Char.ofNat 34)

/-- The selector text built at line 36 from a group name. -/
def groupSelector (group : String) : String :=
  "[data-daily-group=" ++ quote ++ group ++ quote ++ "]"

/-- A group name that reads as itself inside the double-quoted CSS string of
line 36: it has no double quote, no backslash, no line break (LF, CR, FF) and no
NUL. -/
def plainKey (k : String) : Bool :=
  k.data.all fun c =>
    !(c.toNat == 34 || c.toNat == 92 || c.toNat == 10 || c.toNat == 13 || c.toNat == 12 ||
      c.toNat == 0)

/-- What a property read finds on a prototype chain.  `some f` stands for a value
that is truthy and whose `length` is truthy, so that it passes the guard of line
55; `f days` is then the string that the assignment of line 98 stores for
`links[days % links.length]`.  `none` stands for `undefined` or any other value
that fails the guard. -/
abbrev Inherited := String → Option (Nat → String)

/-- An object: its own properties and the view of its prototype chain. -/
structure LinkObject where
  own : LinkMapping
  inherited : Inherited

/-! ## Page state -/

/-- The fields of a resolved URL that the script or its claims mention. -/
structure URLRecord where
  protocol : String
  hostname : String
  port : String
deriving DecidableEq, Repr

/-- An element without its children: its tag name, the attributes the script
reads or writes and the `target` property. -/
structure Element where
  tagName : String
  dailyGroup : Option String
  href : Option String
  dailySelected : Option String
  dailyText : Option String
  target : String
deriving DecidableEq, Repr

/-- A sequence of sibling nodes, each a text node or an element with its child
nodes, followed by the later siblings. -/
inductive Forest where
  | nil
  | text (data : String) (rest : Forest)
  | element (attrs : Element) (children : Forest) (rest : Forest)
deriving DecidableEq, Repr

/-- The document: the nodes below the document node, in document order. -/
abbrev Document := Forest

/-- The globals the script reads, with the parts of the platform it calls: the
URL resolver, the selector engine for selectors other than a plain attribute
test (`none` is `SyntaxError`), the view of `Object.prototype` and the view of
the prototype chain of an object whose prototype is a given array. -/
structure Window where
  DAILY_LINKS : Option LinkObject
  DAILY_REPLACE_ALL : Bool
  DAILY_DEFAULT_GROUP : Option String
  DAILY_REPLACE_INTERNAL_BLANK : Bool
  location : URLRecord
  newURL : String → Option URLRecord
  querySelectorAll : String → Option (Element → Bool)
  objectPrototype : Inherited
  arrayPrototype : List String → Inherited

/-- The window together with its document. -/
structure Page where
  window : Window
  document : Document

/-- The argument values `registerDailyLinks` can be called with; an object is
given by its own properties. -/
inductive JSValue where
  | undefined
  | null
  | boolean (b : Bool)
  | number (n : Int)
  | string (s : String)
  | object (o : LinkMapping)

/-- How a call ends: it returns, or it throws; either way with the state it
has reached. -/
inductive Completion (α : Type) where
  | returned (state : α)
  | threw (state : α)
deriving DecidableEq

/-! ## The document tree -/

/-- The children left by the assignment `el.textContent = value`: one text
node, or none when the value is the empty string. -/
def textNodes (value : String) : Forest :=
  if value = "" then Forest.nil else Forest.text value Forest.nil

/-- The text content of a sequence of nodes: the text below them, in document
order.  The `textContent` of an element is that of its children. -/
def textContent : Forest → String
  | .nil => ""
  | .text data rest => data ++ textContent rest
  | .element _ children rest => textContent children ++ textContent rest

/-- The elements of a forest, in document order. -/
def elements : Forest → List Element
  | .nil => []
  | .text _ rest => elements rest
  | .element el children rest => el :: (elements children ++ elements rest)

/-- The node number `i` among the siblings, if it is an element: its attributes
and children. -/
def childAt : Forest → Nat → Option (Element × Forest)
  | .nil, _ => none
  | .text _ _, 0 => none
  | .text _ rest, i + 1 => childAt rest i
  | .element el children _, 0 => some (el, children)
  | .element _ _ rest, i + 1 => childAt rest i

/-- The element reached by a path of child numbers, with its children. -/
def elementAt : Forest → List Nat → Option (Element × Forest)
  | _, [] => none
  | doc, [i] => childAt doc i
  | doc, i :: j :: path =>
    match childAt doc i with
    | some (_, children) => elementAt children (j :: path)
    | none => none

/-- The elements strictly above the node at a path, outermost first. -/
def ancestorsAt : Forest → List Nat → List Element
  | _, [] => []
  | _, [_] => []
  | doc, i :: j :: path =>
    match childAt doc i with
    | some (el, children) => el :: ancestorsAt children (j :: path)
    | none => []

/-- Visit every element of the document in document order, as `forEach` does on
a static node list: `step` gives the new attributes of the element and, when it
assigns `textContent`, the assigned text.  After such an assignment the former
descendants are no longer in the document, so what is done to them is not part
of the resulting document. -/
def transform (step : Element → Element × Option String) : Forest → Forest
  | .nil => .nil
  | .text data rest => .text data (transform step rest)
  | .element el children rest =>
    match (step el).2 with
    | some value => .element (step el).1 (textNodes value) (transform step rest)
    | none => .element (step el).1 (transform step children) (transform step rest)

/-- The call `querySelectorAll(selector).forEach(callback)` for a selector that
selects the elements satisfying `selected`. -/
def forEachMatch (selected : Element → Bool) (callback : Element → Element × Option String)
    (doc : Document) : Document :=
  transform (fun el => if selected el then callback el else (el, none)) doc

/-! ## The mapping object: property reads and `Object.assign` -/

/-- The object literal `{}`: no own property, prototype `Object.prototype`. -/
def emptyObject (w : Window) : LinkObject := ⟨[], w.objectPrototype⟩

/-- The write `target[key] = value` performed by `Object.assign`.  The name
`__proto__` reaches the setter inherited from `Object.prototype`, which makes
the array the prototype of the target and creates no own property; any other
name creates or overwrites an own property. -/
def assignKey (w : Window) (target : LinkObject) (key : String) (value : List String) :
    LinkObject :=
  if key = "__proto__" then { target with inherited := w.arrayPrototype value }
  else { target with own := setProp target.own key value }

/-- Copy the own properties of `source` onto `target` in key order. -/
def assignFrom (w : Window) (target : LinkObject) (source : LinkMapping) : LinkObject :=
  (objectKeys source).foldl
    (fun t k =>
      match getProp source k with
      | some v => assignKey w t k v
      | none => t)
    target

/-- The call `Object.assign({}, ...sources)`. -/
def objectAssign (w : Window) (sources : List LinkMapping) : LinkObject :=
  sources.foldl (assignFrom w) (emptyObject w)

/-! ## The script -/

/-- The function `daysSinceEpochUTC` (lines 20-22), with the clock reading
`Date.now()` as argument. -/
def daysSinceEpochUTC (now : Nat) : Nat := now / 86400000

/-- The expression `links[days % links.length]` of lines 33-34 and 57. -/
def selectURL (links : List String) (days : Nat) : Option String :=
  links[days % links.length]?

/-- The index `idx = days % links.length` of line 33. -/
def selectedIndex (links : List String) (days : Nat) : Nat := days % links.length

/-- The test `el.tagName.toLowerCase() === 'a'`; the selector `'a'` of line 96
selects the same elements. -/
def isAnchor (el : Element) : Bool := toLowerCase el.tagName == "a"

/-- The assignments `el.href = url` and `el.setAttribute('href', url)`. -/
def setHref (el : Element) (url : String) : Element := { el with href := some url }

/-- The assignment `el.dataset.dailySelected = url`. -/
def setDailySelected (el : Element) (url : String) : Element :=
  { el with dailySelected := some url }

/-- The attributes after lines 38-44: the three-way branch. -/
def updateAttributes (url : String) (el : Element) : Element :=
  if isAnchor el then setHref el url
  else if el.href.isSome then setHref el url
  else setDailySelected el url

/-- The callback of lines 37-49 applied to one element: its new attributes,
and the text assigned at line 47 when `data-daily-text` is `true`. -/
def updateElement (url : String) (el : Element) : Element × Option String :=
  (updateAttributes url el,
    if (updateAttributes url el).dailyText = some "true" then some url else none)

/-- The elements that `querySelectorAll` returns for the selector of line 36,
as a test on elements; `none` when the call throws. -/
def selectGroup (w : Window) (group : String) : Option (Element → Bool) :=
  if plainKey group then some fun el => el.dailyGroup == some group
  else w.querySelectorAll (groupSelector group)

/-- The callback of lines 29-50 applied to one group name: it returns at line 31
when `mapping[group]` is absent or empty; otherwise it selects the URL, and the
query of line 37 either throws or hands its elements to the inner callback. -/
def updateGroup (w : Window) (mapping : LinkMapping) (days : Nat) (doc : Document)
    (group : String) : Completion Document :=
  match getProp mapping group with
  | none => .returned doc
  | some links =>
    if links.length = 0 then .returned doc
    else
      let url := toDOMString (selectURL links days)
      match selectGroup w group with
      | none => .threw doc
      | some selected => .returned (forEachMatch selected (updateElement url) doc)

/-- The loop of line 29 over the remaining keys: an exception leaves the loop. -/
def updateGroups (w : Window) (mapping : LinkMapping) (days : Nat) :
    List String → Document → Completion Document
  | [], doc => .returned doc
  | group :: groups, doc =>
    match updateGroup w mapping days doc group with
    | .returned doc1 => updateGroups w mapping days groups doc1
    | .threw doc1 => .threw doc1

/-- The group-update phase, lines 29-50. -/
def groupUpdates (w : Window) (mapping : LinkMapping) (days : Nat) (doc : Document) :
    Completion Document :=
  updateGroups w mapping days (objectKeys mapping) doc

/-- The test `a.target === '_blank' && window.DAILY_REPLACE_INTERNAL_BLANK`. -/
def internalAllowed (w : Window) (a : Element) : Bool :=
  a.target == "_blank" && w.DAILY_REPLACE_INTERNAL_BLANK

/-- The function `shouldReplaceAnchor` (lines 61-94). -/
def shouldReplaceAnchor (w : Window) (a : Element) : Bool :=
  match a.href with
  | none => false
  | some raw =>
    if raw = "" then false
    else
      let lower := toLowerCase (trim raw)
      if lower = "" || startsWith lower "#" || startsWith lower "javascript:" ||
          startsWith lower "mailto:" || startsWith lower "tel:" || startsWith lower "data:" then
        false
      else if startsWith lower "/" then
        internalAllowed w a
      else if isAbsoluteHttp lower then
        match w.newURL raw with
        | some u => if u.hostname = w.location.hostname then internalAllowed w a else true
        | none => false
      else internalAllowed w a

/-- The value of `defaultGroup` at line 54: the override unless it is falsy,
else the first enumerated key. -/
def defaultGroup (w : Window) (mapping : LinkMapping) : Option String :=
  match w.DAILY_DEFAULT_GROUP with
  | some g => if g ≠ "" then some g else (objectKeys mapping).head?
  | none => (objectKeys mapping).head?

/-- The URL that bulk replacement applies (line 57), when the guards of lines
53 and 55 pass: the flag is set, `defaultGroup` is truthy (neither `undefined`
nor the empty string), and `mapping[defaultGroup]`, an own property or a value
found on the prototype chain, is truthy with a truthy `length`. -/
def bulkURL (w : Window) (mapping : LinkObject) (days : Nat) : Option String :=
  if w.DAILY_REPLACE_ALL then
    match defaultGroup w mapping.own with
    | none => none
    | some g =>
      if g = "" then none
      else
        match getProp mapping.own g with
        | some links =>
          if links.length = 0 then none else some (toDOMString (selectURL links days))
        | none =>
          match mapping.inherited g with
          | some found => some (found days)
          | none => none
  else none

/-- The callback of lines 96-99 applied to one anchor. -/
def replaceAnchor (w : Window) (url : String) (a : Element) : Element :=
  if shouldReplaceAnchor w a then setHref a url else a

/-- The bulk-replacement phase, lines 53-101: under the guards, the callback is
applied to every element that `querySelectorAll('a')` returns. -/
def bulkReplace (w : Window) (mapping : LinkObject) (days : Nat) (doc : Document) :
    Document :=
  match bulkURL w mapping days with
  | none => doc
  | some url => forEachMatch isAnchor (fun a => (replaceAnchor w url a, none)) doc

/-- The value of `window.DAILY_LINKS || {}` at line 25. -/
def currentMapping (w : Window) : LinkObject := w.DAILY_LINKS.getD (emptyObject w)

/-- The function `updateOnce` (lines 24-102); `days` is the value read from
`daysSinceEpochUTC()` at line 26.  An exception in the group-update phase
leaves the function before the bulk-replacement phase. -/
def updateOnce (w : Window) (days : Nat) (doc : Document) : Completion Document :=
  match groupUpdates w (currentMapping w).own days doc with
  | .threw doc1 => .threw doc1
  | .returned doc1 => .returned (bulkReplace w (currentMapping w) days doc1)

/-- A call of `updateOnce` on a page at clock reading `now`. -/
def runUpdate (now : Nat) (p : Page) : Completion Page :=
  match updateOnce p.window (daysSinceEpochUTC now) p.document with
  | .returned doc => .returned { p with document := doc }
  | .threw doc => .threw { p with document := doc }

/-- The entry point `window.updateDailyLinks`, called at clock reading `now`. -/
def updateDailyLinks (now : Nat) (p : Page) : Completion Page := runUpdate now p

/-- The window after the assignment `window.DAILY_LINKS = mapping`. -/
def withLinks (w : Window) (mapping : LinkObject) : Window :=
  { w with DAILY_LINKS := some mapping }

/-- The entry point `window.registerDailyLinks` (lines 104-108), called at
clock reading `now`.  Only an object passes the guard of line 105: `undefined`,
`null`, `false`, `0` and the empty string are falsy, and the `typeof` of every
other primitive is not `'object'`. -/
def registerDailyLinks (mapping : JSValue) (now : Nat) (p : Page) : Completion Page :=
  match mapping with
  | .object o =>
    runUpdate now
      { p with window := withLinks p.window (objectAssign p.window [(currentMapping p.window).own, o]) }
  | _ => .returned p

/-! ## Per-element view of the two phases -/

/-- Every own key of the mapping is a plain key. -/
def plainKeys (mapping : LinkMapping) : Bool := (mapping.map Prod.fst).all plainKey

/-- The URL the group-update phase applies to an element whose group marker is
`group`, if any. -/
def groupURL (mapping : LinkMapping) (days : Nat) (group : Option String) : Option String :=
  match group with
  | none => none
  | some g =>
    match getProp mapping g with
    | none => none
    | some links =>
      if links.length = 0 then none else some (toDOMString (selectURL links days))

/-- Effect of the group-update phase on one element, for plain keys. -/
def groupStep (mapping : LinkMapping) (days : Nat) (el : Element) : Element × Option String :=
  match groupURL mapping days el.dailyGroup with
  | none => (el, none)
  | some url => updateElement url el

/-- Effect of the bulk-replacement phase on the attributes of one element. -/
def bulkStep (w : Window) (mapping : LinkObject) (days : Nat) (el : Element) : Element :=
  match bulkURL w mapping days with
  | none => el
  | some url => if isAnchor el then replaceAnchor w url el else el

/-- Effect of the whole pass on one element, for plain keys. -/
def passStep (w : Window) (days : Nat) (el : Element) : Element × Option String :=
  (bulkStep w (currentMapping w) days (groupStep (currentMapping w).own days el).1,
    (groupStep (currentMapping w).own days el).2)

/-- One step after another on the same element: the later text assignment
wins. -/
def composeSteps (later earlier : Element → Element × Option String) (el : Element) :
    Element × Option String :=
  ((later (earlier el).1).1,
    match (later (earlier el).1).2 with
    | some value => some value
    | none => (earlier el).2)

/-- The element carries the marker of a group with a non-empty list and has
`data-daily-text="true"`: the group-update phase replaces its children by the
selected URL. -/
def mirrors (mapping : LinkMapping) (el : Element) : Bool :=
  match el.dailyGroup with
  | none => false
  | some g =>
    match getProp mapping g with
    | none => false
    | some links => links.length != 0 && el.dailyText == some "true"

/-- The element carries the marker of a group with a non-empty list. -/
def served (mapping : LinkMapping) (el : Element) : Bool :=
  match el.dailyGroup with
  | none => false
  | some g =>
    match getProp mapping g with
    | none => false
    | some links => links.length != 0

/-! ## Example pages -/

/-- The list of the end-to-end example. -/
def promoLinks : List String :=
  ["https://a.example", "https://b.example", "https://c.example"]

/-- A list of two entries that are the same URL. -/
def repeatedLinks : List String := ["https://a.example", "https://a.example"]

/-- Resolution of the absolute URLs that occur in the examples. -/
def exampleNewURL (raw : String) : Option URLRecord :=
  if raw = "https://external.example/x" then some ⟨"https:", "external.example", ""⟩
  else if raw = "https://a.example" then some ⟨"https:", "a.example", ""⟩
  else if raw = "https://b.example" then some ⟨"https:", "b.example", ""⟩
  else if raw = "https://c.example" then some ⟨"https:", "c.example", ""⟩
  else if raw = "https://z.example" then some ⟨"https:", "z.example", ""⟩
  else if raw = "https://example.com/about" then some ⟨"https:", "example.com", ""⟩
  else none

/-- The view of `Object.prototype`: its function members with at least one
formal parameter pass the guard of line 55 and have no element at any index,
so the string assigned is `undefined`; its other members fail the guard. -/
def examplePrototype : Inherited := fun name =>
  if name = "constructor" ∨ name = "hasOwnProperty" ∨ name = "isPrototypeOf" ∨
      name = "propertyIsEnumerable" ∨ name = "__defineGetter__" ∨
      name = "__defineSetter__" ∨ name = "__lookupGetter__" ∨ name = "__lookupSetter__" then
    some fun _ => "undefined"
  else none

/-- The view of the chain of an object whose prototype is an array, restricted
to the names that the examples read, which are those of `Object.prototype`. -/
def exampleArrayPrototype (_items : List String) : Inherited := examplePrototype

/-- The key `a"b`. -/
def quotedKey : String := "a" ++ quote ++ "b"

/-- The key `a\b`, which a CSS string reads as `a` followed by U+000B. -/
def escapedKey : String := "a" ++ String.singleton (Char.ofNat 92) ++ "b"

/-- The group name `a` followed by U+000B. -/
def verticalTabKey : String := "a" ++ String.singleton (Char.ofNat 11)

/-- The key `x"],[href="/z`, which closes the attribute test of line 36 and
adds a second selector. -/
def injectedKeyZ : String := "x" ++ quote ++ "],[href=" ++ quote ++ "/z"

/-- The key `x"],[href="/y`. -/
def injectedKeyY : String := "x" ++ quote ++ "],[href=" ++ quote ++ "/y"

/-- The selector engine on the selectors that the example keys produce: the
selector of `a"b` is invalid, the selector of `a\b` tests the marker against `a`
followed by U+000B, and the two injected selectors are lists that also test
`href`. -/
def exampleQuerySelectorAll (selector : String) : Option (Element → Bool) :=
  if selector = groupSelector escapedKey then
    some fun el => el.dailyGroup == some verticalTabKey
  else if selector = groupSelector injectedKeyZ then
    some fun el => el.dailyGroup == some "x" || el.href == some "/z"
  else if selector = groupSelector injectedKeyY then
    some fun el => el.dailyGroup == some "x" || el.href == some "/y"
  else none

/-- An object with the given own properties and prototype `Object.prototype`. -/
def plainObject (own : LinkMapping) : LinkObject := ⟨own, examplePrototype⟩

/-- A page served from `https://example.com/` with the mapping
`{promo: [a, b, c]}` and the given flags. -/
def exampleWindow (replaceAll internalBlank : Bool) : Window :=
  { DAILY_LINKS := some (plainObject [("promo", promoLinks)])
    DAILY_REPLACE_ALL := replaceAll
    DAILY_DEFAULT_GROUP := none
    DAILY_REPLACE_INTERNAL_BLANK := internalBlank
    location := ⟨"https:", "example.com", ""⟩
    newURL := exampleNewURL
    querySelectorAll := exampleQuerySelectorAll
    objectPrototype := examplePrototype
    arrayPrototype := exampleArrayPrototype }

/-- The example page with the given mapping in place of `{promo: [a, b, c]}`. -/
def windowWith (replaceAll internalBlank : Bool) (own : LinkMapping) : Window :=
  withLinks (exampleWindow replaceAll internalBlank) (plainObject own)

/-- An element with the given tag, group marker and `href`, and nothing else. -/
def exampleElement (tag : String) (group href : Option String) : Element :=
  { tagName := tag
    dailyGroup := group
    href := href
    dailySelected := none
    dailyText := none
    target := "" }

/-- An unmarked anchor with the given `href` and `target`. -/
def exampleAnchor (href target : String) : Element :=
  { tagName := "A"
    dailyGroup := none
    href := some href
    dailySelected := none
    dailyText := none
    target := target }

/-- A `<span>` marked `promo`, without `href`, that mirrors its link as text. -/
def exampleMirror : Element :=
  { exampleElement "SPAN" (some "promo") none with dailyText := some "true" }

/-- A document that consists of one element with the text `link`. -/
def single (el : Element) : Document :=
  .element el (.text "link" .nil) .nil

/-- A document with a marked `<a>`, a marked `<area>` that has an `href`, and
the mirroring `<span>`, each with the text `link`. -/
def exampleDocument : Document :=
  .element (exampleElement "A" (some "promo") none) (.text "link" .nil)
    (.element (exampleElement "AREA" (some "promo") (some "/old")) (.text "link" .nil)
      (.element exampleMirror (.text "link" .nil) .nil))

/-- A `<div>` with the given group marker that holds the text `see ` and a
mirroring `<a>` marked `promo` with the text `link`. -/
def nestedDocument (outer : Option String) : Document :=
  .element (exampleElement "DIV" outer none)
    (.text "see "
      (.element { exampleElement "A" (some "promo") none with dailyText := some "true" }
        (.text "link" .nil) .nil))
    .nil

/-- Resolution of the URLs of the `localhost` example. -/
def localhostNewURL (raw : String) : Option URLRecord :=
  if raw = "http://localhost:9000/x" then some ⟨"http:", "localhost", "9000"⟩
  else if raw = "https://localhost/x" then some ⟨"https:", "localhost", ""⟩
  else none

/-- A page served from `http://localhost:8000/` with bulk replacement enabled
and the given allow-internal-new-tab flag. -/
def localhostWindow (internalBlank : Bool) : Window :=
  { exampleWindow true internalBlank with
    location := ⟨"http:", "localhost", "8000"⟩
    newURL := localhostNewURL }

/-- The example page, bulk replacement off, whose mapping has the two injected
keys: `x"],[href="/z` with the list `["/w"]` and `x"],[href="/y` with the list
`["/z"]`. -/
def injectedWindow : Window :=
  windowWith false false [(injectedKeyZ, ["/w"]), (injectedKeyY, ["/z"])]

/-- The example page with bulk replacement enabled and a second group `main`,
enumerated first, whose list is `first`. -/
def twoGroupWindow (first : List String) : Window :=
  windowWith true false [("main", first), ("promo", promoLinks)]

/-- The example page, bulk replacement off, with the groups `promo` and `wrap`
and the given lists. -/
def wrapWindow (promo wrap : List String) : Window :=
  windowWith false false [("promo", promo), ("wrap", wrap)]

/-- The example page with bulk replacement enabled whose mapping starts with a
group named by the empty string, with the list `["https://z.example"]`,
followed by the given groups. -/
def emptyNameWindow (others : LinkMapping) : Window :=
  windowWith true false (("", ["https://z.example"]) :: others)

/-- A document with an `<a>` marked with the empty group name and an unmarked
`<a>` that points to another host. -/
def emptyNameDocument : Document :=
  .element (exampleElement "A" (some "") none) (.text "link" .nil)
    (.element (exampleAnchor "https://external.example/x" "") (.text "out" .nil) .nil)

/-- The example page with bulk replacement enabled and the given default-group
override. -/
def overrideWindow (override : String) : Window :=
  { exampleWindow true false with DAILY_DEFAULT_GROUP := some override }

/-! ## Lemmas on the document tree -/

theorem transform_congr (s1 s2 : Element → Element × Option String) (h : ∀ el, s1 el = s2 el)
    (doc : Forest) : transform s1 doc = transform s2 doc := by
  have : s1 = s2 := funext h
  rw [this]

theorem transform_id (doc : Forest) : transform (fun el => (el, none)) doc = doc := by
  induction doc with
  | nil => rfl
  | text data rest ih => simp only [transform, ih]
  | element el children rest ihc ihr => simp only [transform, ihc, ihr]

theorem transform_textNodes (s : Element → Element × Option String) (value : String) :
    transform s (textNodes value) = textNodes value := by
  unfold textNodes
  split_ifs <;> rfl

theorem transform_transform (s2 s1 : Element → Element × Option String) (doc : Forest) :
    transform s2 (transform s1 doc) = transform (composeSteps s2 s1) doc := by
  induction doc with
  | nil => rfl
  | text data rest ih => simp only [transform, ih]
  | element el children rest ihc ihr =>
    cases h1 : (s1 el).2 with
    | some v1 =>
      cases h2 : (s2 (s1 el).1).2 with
      | some v2 => simp only [transform, h1, h2, composeSteps, ihr]
      | none => simp only [transform, h1, h2, composeSteps, ihr, transform_textNodes]
    | none =>
      cases h2 : (s2 (s1 el).1).2 with
      | some v2 => simp only [transform, h1, h2, composeSteps, ihr]
      | none => simp only [transform, h1, h2, composeSteps, ihr, ihc]

theorem textContent_textNodes (value : String) : textContent (textNodes value) = value := by
  unfold textNodes
  split_ifs with h
  · rw [h]; rfl
  · simp [textContent]

theorem textContent_transform (s : Element → Element × Option String) (doc : Forest)
    (h : ∀ el ∈ elements doc, (s el).2 = none) :
    textContent (transform s doc) = textContent doc := by
  induction doc with
  | nil => rfl
  | text data rest ih =>
    simp only [transform, textContent]
    rw [ih (fun el hel => h el (by simpa [elements] using hel))]
  | element el children rest ihc ihr =>
    have h0 : (s el).2 = none := h el (by simp [elements])
    simp only [transform, h0, textContent]
    rw [ihc (fun e he => h e (by simp [elements, he])),
      ihr (fun e he => h e (by simp [elements, he]))]

theorem mem_elements_transform (s : Element → Element × Option String) (doc : Forest)
    (e : Element) (h : e ∈ elements (transform s doc)) :
    ∃ el ∈ elements doc, e = (s el).1 := by
  induction doc with
  | nil => simp [transform, elements] at h
  | text data rest ih =>
    simp only [transform, elements] at h
    obtain ⟨el, hel, he⟩ := ih h
    exact ⟨el, by simpa [elements] using hel, he⟩
  | element el children rest ihc ihr =>
    cases h0 : (s el).2 with
    | some v =>
      simp only [transform, h0, elements, List.mem_cons, List.mem_append] at h
      rcases h with h | h | h
      · exact ⟨el, by simp [elements], h⟩
      · exfalso
        unfold textNodes at h
        split_ifs at h <;> simp [elements] at h
      · obtain ⟨x, hx, he⟩ := ihr h
        exact ⟨x, by simp [elements, hx], he⟩
    | none =>
      simp only [transform, h0, elements, List.mem_cons, List.mem_append] at h
      rcases h with h | h | h
      · exact ⟨el, by simp [elements], h⟩
      · obtain ⟨x, hx, he⟩ := ihc h
        exact ⟨x, by simp [elements, hx], he⟩
      · obtain ⟨x, hx, he⟩ := ihr h
        exact ⟨x, by simp [elements, hx], he⟩

/-- The children an element has after a step. -/
theorem childAt_transform (s : Element → Element × Option String) (doc : Forest) (i : Nat) :
    childAt (transform s doc) i =
      (childAt doc i).map fun node =>
        ((s node.1).1,
          match (s node.1).2 with
          | some value => textNodes value
          | none => transform s node.2) := by
  induction doc generalizing i with
  | nil => rfl
  | text data rest ih =>
    cases i with
    | zero => rfl
    | succ i => simp only [transform, childAt, ih]
  | element el children rest _ ihr =>
    cases i with
    | zero =>
      cases h0 : (s el).2 with
      | some v => simp only [transform, h0, childAt, Option.map_some']
      | none => simp only [transform, h0, childAt, Option.map_some']
    | succ i =>
      cases h0 : (s el).2 with
      | some v => simp only [transform, h0, childAt, ihr]
      | none => simp only [transform, h0, childAt, ihr]

theorem elementAt_transform (s : Element → Element × Option String) (path : List Nat)
    (doc : Forest) (el : Element) (children : Forest)
    (h : elementAt doc path = some (el, children))
    (ha : ∀ a ∈ ancestorsAt doc path, (s a).2 = none) :
    elementAt (transform s doc) path =
      some ((s el).1,
        match (s el).2 with
        | some value => textNodes value
        | none => transform s children) := by
  induction path generalizing doc with
  | nil => simp [elementAt] at h
  | cons i rest ih =>
    cases rest with
    | nil =>
      simp only [elementAt] at h ⊢
      rw [childAt_transform, h]
      rfl
    | cons j rest =>
      simp only [elementAt] at h ⊢
      cases hc : childAt doc i with
      | none => rw [hc] at h; simp at h
      | some node =>
        obtain ⟨a, cs⟩ := node
        rw [hc] at h
        simp only at h
        have haa : (s a).2 = none := ha a (by simp [ancestorsAt, hc])
        rw [childAt_transform, hc]
        simp only [Option.map_some', haa]
        apply ih cs h
        intro b hb
        exact ha b (by simp [ancestorsAt, hc, hb])

/-! ## Lemmas on the two phases -/

theorem isAnchor_updateAttributes (u : String) (el : Element) :
    isAnchor (updateAttributes u el) = isAnchor el := by
  unfold updateAttributes
  split_ifs <;> rfl

theorem dailyGroup_updateAttributes (u : String) (el : Element) :
    (updateAttributes u el).dailyGroup = el.dailyGroup := by
  unfold updateAttributes
  split_ifs <;> rfl

theorem dailyText_updateAttributes (u : String) (el : Element) :
    (updateAttributes u el).dailyText = el.dailyText := by
  unfold updateAttributes
  split_ifs <;> rfl

theorem target_updateAttributes (u : String) (el : Element) :
    (updateAttributes u el).target = el.target := by
  unfold updateAttributes
  split_ifs <;> rfl

theorem updateAttributes_anchor (u : String) (el : Element) (h : isAnchor el = true) :
    updateAttributes u el = setHref el u := by
  simp only [updateAttributes, h, if_true]

theorem updateAttributes_with_href (u : String) (el : Element) (h : isAnchor el = false)
    (hh : el.href.isSome = true) : updateAttributes u el = setHref el u := by
  simp only [updateAttributes, h, hh, if_true, Bool.false_eq_true, if_false]

theorem updateAttributes_without_href (u : String) (el : Element) (h : isAnchor el = false)
    (hh : el.href = none) : updateAttributes u el = setDailySelected el u := by
  simp only [updateAttributes, h, hh, Option.isSome_none, Bool.false_eq_true, if_false]

theorem updateAttributes_idem (u : String) (el : Element) :
    updateAttributes u (updateAttributes u el) = updateAttributes u el := by
  by_cases ha : isAnchor el = true
  · rw [updateAttributes_anchor u el ha]
    exact updateAttributes_anchor u (setHref el u) ha
  · have ha2 : isAnchor el = false := by simpa using ha
    by_cases hh : el.href.isSome = true
    · rw [updateAttributes_with_href u el ha2 hh]
      exact updateAttributes_with_href u (setHref el u) ha2 rfl
    · have hh2 : el.href = none := by simpa using hh
      rw [updateAttributes_without_href u el ha2 hh2]
      exact (updateAttributes_without_href u (setDailySelected el u) ha2 hh2).trans rfl

theorem updateAttributes_setHref (u v : String) (el : Element) (h : isAnchor el = true) :
    updateAttributes u (setHref el v) = updateAttributes u el := by
  rw [updateAttributes_anchor u el h]
  exact (updateAttributes_anchor u (setHref el v) h).trans rfl

theorem updateElement_fst (u : String) (el : Element) :
    (updateElement u el).1 = updateAttributes u el := rfl

theorem updateElement_snd (u : String) (el : Element) :
    (updateElement u el).2 = if el.dailyText = some "true" then some u else none := by
  simp only [updateElement, dailyText_updateAttributes]

theorem updateElement_idem (u : String) (el : Element) :
    updateElement u (updateElement u el).1 = updateElement u el := by
  simp only [updateElement, updateAttributes_idem]

theorem groupStep_fst_dailyGroup (m : LinkMapping) (d : Nat) (el : Element) :
    (groupStep m d el).1.dailyGroup = el.dailyGroup := by
  unfold groupStep
  split
  · rfl
  · exact dailyGroup_updateAttributes _ _

theorem groupStep_idem (m : LinkMapping) (d : Nat) (el : Element) :
    groupStep m d (groupStep m d el).1 = groupStep m d el := by
  have h := groupStep_fst_dailyGroup m d el
  unfold groupStep at h ⊢
  cases hu : groupURL m d el.dailyGroup with
  | none => simp only [hu]
  | some u =>
    simp only [hu] at h ⊢
    rw [h, hu]
    exact updateElement_idem u el

theorem isAnchor_groupStep (m : LinkMapping) (d : Nat) (el : Element) :
    isAnchor (groupStep m d el).1 = isAnchor el := by
  unfold groupStep
  split
  · rfl
  · exact isAnchor_updateAttributes _ _

theorem mem_objectKeys (m : LinkMapping) (k : String) :
    k ∈ objectKeys m ↔ k ∈ m.map Prod.fst := by
  unfold objectKeys
  simp only
  have hp := List.filter_append_perm (fun k => (arrayIndex k).isSome) (m.map Prod.fst)
  rw [← hp.mem_iff]
  simp only [List.mem_append]
  rw [(List.perm_insertionSort _ _).mem_iff]

theorem getProp_isSome_iff (m : LinkMapping) (k : String) :
    (getProp m k).isSome ↔ k ∈ m.map Prod.fst := by
  induction m with
  | nil => simp [getProp]
  | cons e rest ih =>
    obtain ⟨k1, v⟩ := e
    unfold getProp
    by_cases h : k1 = k
    · simp [h]
    · simp [h, ih, Ne.symm h]

theorem selectURL_of_ne_nil (L : List String) (d : Nat) (hL : L ≠ []) :
    selectURL L d = some (L.get ⟨d % L.length, Nat.mod_lt d (List.length_pos.mpr hL)⟩) := by
  unfold selectURL
  rw [List.getElem?_eq_getElem (Nat.mod_lt d (List.length_pos.mpr hL))]
  rfl

theorem length_ne_zero_of_ne_nil (L : List String) (hL : L ≠ []) : ¬ L.length = 0 := by
  intro h
  exact hL (List.length_eq_zero.mp h)

theorem groupURL_of_getProp (m : LinkMapping) (d : Nat) (g : String) (L : List String)
    (hg : getProp m g = some L) (hL : L ≠ []) :
    groupURL m d (some g) =
      some (L.get ⟨d % L.length, Nat.mod_lt d (List.length_pos.mpr hL)⟩) := by
  simp only [groupURL, hg, length_ne_zero_of_ne_nil L hL, if_false,
    selectURL_of_ne_nil L d hL, toDOMString]

theorem groupStep_of_getProp (m : LinkMapping) (d : Nat) (g : String) (L : List String)
    (el : Element) (hg : getProp m g = some L) (hL : L ≠ []) (hm : el.dailyGroup = some g) :
    groupStep m d el =
      updateElement (L.get ⟨d % L.length, Nat.mod_lt d (List.length_pos.mpr hL)⟩) el := by
  simp only [groupStep, hm, groupURL_of_getProp m d g L hg hL]

/-- For a plain key the callback of line 29 returns, having applied the step of
the group to the elements that carry its marker. -/
theorem updateGroup_plain (w : Window) (m : LinkMapping) (d : Nat) (doc : Document)
    (k : String) (hk : plainKey k = true) :
    updateGroup w m d doc k =
      .returned
        (transform (fun el => if el.dailyGroup = some k then groupStep m d el else (el, none))
          doc) := by
  unfold updateGroup
  cases hp : getProp m k with
  | none =>
    simp only
    congr 1
    rw [transform_congr _ (fun el => (el, none)) _ doc, transform_id]
    intro el
    by_cases hg : el.dailyGroup = some k
    · simp [hg, groupStep, groupURL, hp]
    · simp [hg]
  | some links =>
    simp only
    by_cases hl : links.length = 0
    · simp only [hl, if_true]
      congr 1
      rw [transform_congr _ (fun el => (el, none)) _ doc, transform_id]
      intro el
      by_cases hg : el.dailyGroup = some k
      · simp [hg, groupStep, groupURL, hp, hl]
      · simp [hg]
    · simp only [hl, if_false, selectGroup, hk, if_true, forEachMatch]
      congr 1
      apply transform_congr
      intro el
      by_cases hg : el.dailyGroup = some k
      · simp [hg, groupStep, groupURL, hp, hl]
      · simp [hg]

theorem updateGroups_plain (w : Window) (m : LinkMapping) (d : Nat) (ks : List String)
    (doc : Document) (hks : ∀ k ∈ ks, plainKey k = true) :
    updateGroups w m d ks doc =
      .returned
        (transform
          (fun el =>
            match el.dailyGroup with
            | some g => if g ∈ ks then groupStep m d el else (el, none)
            | none => (el, none))
          doc) := by
  induction ks generalizing doc with
  | nil =>
    simp only [updateGroups]
    congr 1
    rw [transform_congr _ (fun el => (el, none)) _ doc, transform_id]
    intro el
    cases el.dailyGroup <;> simp
  | cons k ks ih =>
    simp only [updateGroups, updateGroup_plain w m d doc k (hks k (by simp))]
    rw [ih _ (fun x hx => hks x (by simp [hx])), transform_transform]
    congr 1
    apply transform_congr
    intro el
    cases hg : el.dailyGroup with
    | none => simp [composeSteps, hg]
    | some g =>
      by_cases hgk : g = k
      · subst hgk
        simp only [composeSteps, hg, if_true, groupStep_fst_dailyGroup, groupStep_idem,
          List.mem_cons, true_or]
        generalize groupStep m d el = r
        rcases r with ⟨e1, t1⟩
        by_cases hmem : g ∈ ks
        · simp only [hmem, if_true]
          cases t1 <;> rfl
        · simp only [hmem, if_false]
      · have hne : ¬ (some g = some k) := by simpa using hgk
        simp only [composeSteps, hg, hne, if_false, List.mem_cons, hgk, false_or]
        by_cases hmem : g ∈ ks
        · simp only [hmem, if_true]
          generalize groupStep m d el = r
          rcases r with ⟨e1, t1⟩
          cases t1 <;> rfl
        · simp only [hmem, if_false]

theorem plainKeys_mem (m : LinkMapping) (h : plainKeys m = true) (k : String)
    (hk : k ∈ objectKeys m) : plainKey k = true := by
  rw [mem_objectKeys] at hk
  unfold plainKeys at h
  rw [List.all_eq_true] at h
  exact h k hk

/-- With plain keys the group-update phase returns and is one traversal of the
document. -/
theorem groupUpdates_plain (w : Window) (m : LinkMapping) (d : Nat) (doc : Document)
    (h : plainKeys m = true) :
    groupUpdates w m d doc = .returned (transform (groupStep m d) doc) := by
  unfold groupUpdates
  rw [updateGroups_plain w m d _ doc (plainKeys_mem m h)]
  congr 1
  apply transform_congr
  intro el
  cases hg : el.dailyGroup with
  | none => simp [groupStep, groupURL, hg]
  | some g =>
    simp only
    by_cases hk : g ∈ objectKeys m
    · simp [hk]
    · simp only [hk, if_false]
      have : getProp m g = none := by
        rw [mem_objectKeys, ← getProp_isSome_iff] at hk
        simpa using hk
      simp [groupStep, groupURL, hg, this]

theorem bulkReplace_eq_transform (w : Window) (mapping : LinkObject) (d : Nat)
    (doc : Document) :
    bulkReplace w mapping d doc = transform (fun el => (bulkStep w mapping d el, none)) doc := by
  unfold bulkReplace bulkStep
  cases bulkURL w mapping d with
  | none => simp only [transform_id]
  | some u =>
    simp only [forEachMatch]
    apply transform_congr
    intro el
    split_ifs <;> rfl

/-- With plain keys the whole pass returns and is one traversal of the
document. -/
theorem updateOnce_plain (w : Window) (d : Nat) (doc : Document)
    (h : plainKeys (currentMapping w).own = true) :
    updateOnce w d doc = .returned (transform (passStep w d) doc) := by
  unfold updateOnce
  rw [groupUpdates_plain w _ d doc h]
  simp only [bulkReplace_eq_transform, transform_transform]
  congr 1

theorem selectedIndex_lt (L : List String) (d : Nat) (hL : L ≠ []) :
    selectedIndex L d < L.length :=
  Nat.mod_lt d (List.length_pos.mpr hL)

theorem selectedIndex_add (L : List String) (d k : Nat) :
    (k + selectedIndex L d) % L.length = selectedIndex L (d + k) := by
  unfold selectedIndex
  rw [Nat.add_comm d k, Nat.add_mod k d, Nat.add_mod k (d % L.length), Nat.mod_mod]

theorem groupStep_snd (m : LinkMapping) (d : Nat) (el : Element) :
    (groupStep m d el).2 = none ↔ mirrors m el = false := by
  cases hg : el.dailyGroup with
  | none => simp [groupStep, groupURL, mirrors, hg]
  | some g =>
    cases hp : getProp m g with
    | none => simp [groupStep, groupURL, mirrors, hg, hp]
    | some L =>
      by_cases hl : L.length = 0
      · simp [groupStep, groupURL, mirrors, hg, hp, hl]
      · simp only [groupStep, groupURL, mirrors, hg, hp, hl, if_false, updateElement_snd]
        by_cases ht : el.dailyText = some "true"
        · simp [ht, hl]
        · simp [ht, hl]

theorem groupStep_of_not_served (m : LinkMapping) (d : Nat) (el : Element)
    (h : served m el = false) : groupStep m d el = (el, none) := by
  cases hg : el.dailyGroup with
  | none => simp only [groupStep, groupURL, hg]
  | some g =>
    cases hp : getProp m g with
    | none => simp only [groupStep, groupURL, hg, hp]
    | some L =>
      have hl : L.length = 0 := by simpa [served, hg, hp] using h
      simp only [groupStep, groupURL, hg, hp, hl, if_true]

theorem mirrors_of_not_served (m : LinkMapping) (el : Element) (h : served m el = false) :
    mirrors m el = false := by
  cases hg : el.dailyGroup with
  | none => simp only [mirrors, hg]
  | some g =>
    cases hp : getProp m g with
    | none => simp only [mirrors, hg, hp]
    | some L =>
      have hl : L.length = 0 := by simpa [served, hg, hp] using h
      simp [mirrors, hg, hp, hl]

theorem transform_eq_self (s : Element → Element × Option String) (doc : Forest)
    (h : ∀ el ∈ elements doc, s el = (el, none)) : transform s doc = doc := by
  induction doc with
  | nil => rfl
  | text data rest ih =>
    simp only [transform]
    rw [ih (fun el hel => h el (by simpa [elements] using hel))]
  | element el children rest ihc ihr =>
    have h0 := h el (by simp [elements])
    simp only [transform, h0]
    rw [ihc (fun e he => h e (by simp [elements, he])),
      ihr (fun e he => h e (by simp [elements, he]))]

theorem textContent_transform_congr (s1 s2 : Element → Element × Option String)
    (doc : Forest) (h : ∀ el ∈ elements doc, (s1 el).2 = (s2 el).2) :
    textContent (transform s1 doc) = textContent (transform s2 doc) := by
  induction doc with
  | nil => rfl
  | text data rest ih =>
    simp only [transform, textContent]
    rw [ih (fun el hel => h el (by simpa [elements] using hel))]
  | element el children rest ihc ihr =>
    have h0 := h el (by simp [elements])
    have hr := ihr (fun e he => h e (by simp [elements, he]))
    have hc := ihc (fun e he => h e (by simp [elements, he]))
    cases h2 : (s2 el).2 with
    | some v =>
      rw [h2] at h0
      simp only [transform, h0, h2, textContent, hr]
    | none =>
      rw [h2] at h0
      simp only [transform, h0, h2, textContent, hr, hc]

/-- With plain keys, what the group-update phase leaves at a path whose
ancestors keep their children. -/
theorem elementAt_groupUpdates (w : Window) (m : LinkMapping) (d : Nat) (doc : Document)
    (path : List Nat) (el : Element) (children : Forest) (hplain : plainKeys m = true)
    (hp : elementAt doc path = some (el, children))
    (hanc : ∀ a ∈ ancestorsAt doc path, mirrors m a = false) :
    ∃ doc1 children1, groupUpdates w m d doc = .returned doc1 ∧
      elementAt doc1 path = some ((groupStep m d el).1, children1) ∧
      (mirrors m el = false → groupUpdates w m d children = .returned children1) ∧
      (∀ v, (groupStep m d el).2 = some v → children1 = textNodes v) := by
  have h := elementAt_transform (groupStep m d) path doc el children hp
    (fun a ha => (groupStep_snd m d a).mpr (hanc a ha))
  refine ⟨_, _, groupUpdates_plain w m d doc hplain, h, ?_, ?_⟩
  · intro hmir
    rw [(groupStep_snd m d el).mpr hmir]
    exact groupUpdates_plain w m d children hplain
  · intro v hv
    rw [hv]

theorem passStep_snd (w : Window) (d : Nat) (el : Element) :
    (passStep w d el).2 = (groupStep (currentMapping w).own d el).2 := rfl

/-- With plain keys, what the whole pass leaves at a path whose ancestors keep
their children. -/
theorem elementAt_updateOnce (w : Window) (d : Nat) (doc : Document) (path : List Nat)
    (el : Element) (children : Forest) (hplain : plainKeys (currentMapping w).own = true)
    (hp : elementAt doc path = some (el, children))
    (hanc : ∀ a ∈ ancestorsAt doc path, mirrors (currentMapping w).own a = false) :
    ∃ doc1 children1, updateOnce w d doc = .returned doc1 ∧
      elementAt doc1 path = some ((passStep w d el).1, children1) ∧
      (mirrors (currentMapping w).own el = false →
        updateOnce w d children = .returned children1) ∧
      (∀ v, (groupStep (currentMapping w).own d el).2 = some v → children1 = textNodes v) := by
  have h := elementAt_transform (passStep w d) path doc el children hp
    (fun a ha => (groupStep_snd _ d a).mpr (hanc a ha))
  refine ⟨_, _, updateOnce_plain w d doc hplain, h, ?_, ?_⟩
  · intro hmir
    rw [passStep_snd, (groupStep_snd _ d el).mpr hmir]
    exact updateOnce_plain w d children hplain
  · intro v hv
    rw [passStep_snd, hv]

theorem bulkStep_of_not_anchor (w : Window) (o : LinkObject) (d : Nat) (el : Element)
    (h : isAnchor el = false) : bulkStep w o d el = el := by
  unfold bulkStep
  split
  · rfl
  · simp [h]

theorem shouldReplaceAnchor_congr (w : Window) (a b : Element) (hh : a.href = b.href)
    (ht : a.target = b.target) : shouldReplaceAnchor w a = shouldReplaceAnchor w b := by
  unfold shouldReplaceAnchor internalAllowed
  rw [hh, ht]

/-! ## Two mappings with the same keys -/

theorem objectKeys_congr (m1 m2 : LinkMapping) (h : m1.map Prod.fst = m2.map Prod.fst) :
    objectKeys m1 = objectKeys m2 := by
  simp only [objectKeys, h]

theorem plainKeys_congr (m1 m2 : LinkMapping) (h : m1.map Prod.fst = m2.map Prod.fst) :
    plainKeys m1 = plainKeys m2 := by
  simp only [plainKeys, h]

theorem defaultGroup_congr (w : Window) (m1 m2 : LinkMapping)
    (h : m1.map Prod.fst = m2.map Prod.fst) : defaultGroup w m1 = defaultGroup w m2 := by
  simp only [defaultGroup, objectKeys_congr m1 m2 h]

theorem groupStep_congr (m1 m2 : LinkMapping) (d : Nat) (el : Element)
    (h : ∀ g, el.dailyGroup = some g → getProp m1 g = getProp m2 g) :
    groupStep m1 d el = groupStep m2 d el := by
  cases hg : el.dailyGroup with
  | none => simp only [groupStep, groupURL, hg]
  | some g => simp only [groupStep, groupURL, hg, h g hg]

theorem mirrors_of_no_text (m : LinkMapping) (el : Element) (h : el.dailyText ≠ some "true") :
    mirrors m el = false := by
  cases hg : el.dailyGroup with
  | none => simp only [mirrors, hg]
  | some g =>
    cases hp : getProp m g with
    | none => simp only [mirrors, hg, hp]
    | some links => simp [mirrors, hg, hp, h]

theorem bulkURL_congr (w : Window) (m1 m2 : LinkMapping) (inh : Inherited) (d : Nat)
    (hkeys : m1.map Prod.fst = m2.map Prod.fst)
    (hD : ∀ g, defaultGroup w m1 = some g → getProp m1 g = getProp m2 g) :
    bulkURL w ⟨m1, inh⟩ d = bulkURL w ⟨m2, inh⟩ d := by
  unfold bulkURL
  simp only [← defaultGroup_congr w m1 m2 hkeys]
  cases hdg : defaultGroup w m1 with
  | none => rfl
  | some g => simp only [hD g hdg]

theorem currentMapping_withLinks (w : Window) (o : LinkObject) :
    currentMapping (withLinks w o) = o := rfl

theorem shouldReplaceAnchor_withLinks (w : Window) (o : LinkObject) (a : Element) :
    shouldReplaceAnchor (withLinks w o) a = shouldReplaceAnchor w a := rfl

theorem bulkURL_withLinks (w : Window) (o mapping : LinkObject) (d : Nat) :
    bulkURL (withLinks w o) mapping d = bulkURL w mapping d := rfl

theorem bulkStep_withLinks (w : Window) (o mapping : LinkObject) (d : Nat) (el : Element) :
    bulkStep (withLinks w o) mapping d el = bulkStep w mapping d el := rfl

theorem bulkStep_of_not_eligible (w : Window) (o : LinkObject) (d : Nat) (el : Element)
    (h : shouldReplaceAnchor w el = false) : bulkStep w o d el = el := by
  unfold bulkStep
  split
  · rfl
  · split
    · simp only [replaceAnchor, h, Bool.false_eq_true, if_false]
    · rfl

theorem bulkStep_of_flag_off (w : Window) (o : LinkObject) (d : Nat) (el : Element)
    (h : w.DAILY_REPLACE_ALL = false) : bulkStep w o d el = el := by
  simp [bulkStep, bulkURL, h]

theorem bulkURL_eq_selectURL (w : Window) (o : LinkObject) (d : Nat) (g : String)
    (L : List String) (hflag : w.DAILY_REPLACE_ALL = true)
    (hdef : defaultGroup w o.own = some g) (hne : g ≠ "") (hg : getProp o.own g = some L)
    (hL : L ≠ []) : bulkURL w o d = selectURL L d := by
  simp only [bulkURL, hflag, if_true, hdef, hne, if_false, hg,
    length_ne_zero_of_ne_nil L hL, selectURL_of_ne_nil L d hL]
  rfl

theorem bulkReplace_of_none (w : Window) (o : LinkObject) (d : Nat) (doc : Document)
    (h : bulkURL w o d = none) : bulkReplace w o d doc = doc := by
  simp only [bulkReplace, h]

theorem passStep_of_flag_off (w : Window) (d : Nat) (el : Element)
    (h : w.DAILY_REPLACE_ALL = false) :
    passStep w d el = groupStep (currentMapping w).own d el := by
  simp only [passStep, bulkStep_of_flag_off _ _ _ _ h]

/-! ## Keys that are not plain

Two evaluations of the pass on keys whose selector is not the attribute test
on the key itself. -/

/-- The key `a"b` makes the selector of line 36 invalid: the query throws at
that key, the group `promo` enumerated after it is not served, and the
bulk-replacement phase is not reached. -/
theorem quoted_key_throws :
    updateOnce (windowWith true false [(quotedKey, ["https://z.example"]), ("promo", promoLinks)])
        7 exampleDocument = .threw exampleDocument := by
  decide

/-- The key `a\b` selects the element marked `a` followed by U+000B and not the
element marked `a\b`. -/
theorem escaped_key_selects_other_marker :
    updateOnce (windowWith false false [(escapedKey, ["https://z.example"])]) 7
        (.element (exampleElement "A" (some escapedKey) none) .nil
          (.element (exampleElement "A" (some verticalTabKey) none) .nil .nil)) =
      .returned
        (.element (exampleElement "A" (some escapedKey) none) .nil
          (.element (exampleElement "A" (some verticalTabKey) (some "https://z.example")) .nil
            .nil)) := by
  decide

/-! ## The pass run twice, for plain keys -/

theorem setHref_setHref (el : Element) (u v : String) : setHref (setHref el u) v = setHref el v :=
  rfl

theorem bulkStep_cases (w : Window) (o : LinkObject) (d : Nat) (el : Element) :
    bulkStep w o d el = el ∨
      (isAnchor el = true ∧ ∃ v, bulkURL w o d = some v ∧ bulkStep w o d el = setHref el v) := by
  unfold bulkStep
  cases hb : bulkURL w o d with
  | none => exact Or.inl rfl
  | some v =>
    by_cases ha : isAnchor el = true
    · by_cases hs : shouldReplaceAnchor w el = true
      · refine Or.inr ⟨ha, v, rfl, ?_⟩
        simp only [ha, if_true, replaceAnchor, hs]
      · refine Or.inl ?_
        simp [ha, replaceAnchor, hs]
    · refine Or.inl ?_
      simp [ha]

theorem dailyGroup_bulkStep (w : Window) (o : LinkObject) (d : Nat) (el : Element) :
    (bulkStep w o d el).dailyGroup = el.dailyGroup := by
  rcases bulkStep_cases w o d el with h | ⟨_, v, _, h⟩
  · rw [h]
  · rw [h]
    rfl

theorem dailyText_bulkStep (w : Window) (o : LinkObject) (d : Nat) (el : Element) :
    (bulkStep w o d el).dailyText = el.dailyText := by
  rcases bulkStep_cases w o d el with h | ⟨_, v, _, h⟩
  · rw [h]
  · rw [h]
    rfl

theorem bulkStep_idem (w : Window) (o : LinkObject) (d : Nat) (el : Element) :
    bulkStep w o d (bulkStep w o d el) = bulkStep w o d el := by
  rcases bulkStep_cases w o d el with h | ⟨ha, v, hb, h⟩
  · rw [h, h]
  · rw [h]
    rcases bulkStep_cases w o d (setHref el v) with h2 | ⟨_, v2, hb2, h2⟩
    · exact h2
    · rw [h2, setHref_setHref]
      rw [hb] at hb2
      rw [Option.some.inj hb2]

theorem updateAttributes_bulkStep (w : Window) (o : LinkObject) (d : Nat) (u : String)
    (el : Element) :
    updateAttributes u (bulkStep w o d (updateAttributes u el)) = updateAttributes u el := by
  rcases bulkStep_cases w o d (updateAttributes u el) with h | ⟨ha, v, _, h⟩
  · rw [h, updateAttributes_idem]
  · rw [h]
    have ha0 : isAnchor el = true := (isAnchor_updateAttributes u el).symm.trans ha
    rw [updateAttributes_setHref u v _ ha, updateAttributes_idem]

theorem passStep_idem (w : Window) (d : Nat) (el : Element) :
    passStep w d (passStep w d el).1 = passStep w d el := by
  unfold passStep groupStep
  cases hu : groupURL (currentMapping w).own d el.dailyGroup with
  | none =>
    simp only [dailyGroup_bulkStep, hu, bulkStep_idem]
  | some u =>
    simp only [updateElement_fst, dailyGroup_bulkStep, dailyGroup_updateAttributes, hu,
      updateAttributes_bulkStep, updateElement_snd, dailyText_bulkStep,
      dailyText_updateAttributes]

/-- When the group names of the mapping are plain, the pass returns, and a second
pass with the same mapping on the same day returns the document that the first
pass returned. -/
theorem updateOnce_idempotent_plain (w : Window) (d : Nat) (doc : Document)
    (hplain : plainKeys (currentMapping w).own = true) :
    ∃ doc1, updateOnce w d doc = .returned doc1 ∧ updateOnce w d doc1 = .returned doc1 := by
  refine ⟨_, updateOnce_plain w d doc hplain, ?_⟩
  rw [updateOnce_plain w d _ hplain, transform_transform]
  congr 1
  apply transform_congr
  intro el
  simp only [composeSteps, passStep_idem]
  generalize passStep w d el = r
  rcases r with ⟨e1, t1⟩
  cases t1 <;> rfl

/-! ## Lemmas on the mapping object -/

theorem getProp_setProp (t : LinkMapping) (k k' : String) (v : List String) :
    getProp (setProp t k v) k' = if k = k' then some v else getProp t k' := by
  induction t with
  | nil => simp [setProp, getProp]
  | cons e rest ih =>
    obtain ⟨k0, v0⟩ := e
    unfold setProp
    by_cases h0 : k0 = k
    · subst h0
      by_cases h1 : k0 = k' <;> simp [getProp, h1]
    · simp only [h0, if_false, getProp, ih]
      by_cases h1 : k0 = k'
      · subst h1
        simp [Ne.symm h0]
      · simp [h1]

theorem getProp_assignKey (w : Window) (t : LinkObject) (k k' : String) (v : List String) :
    getProp (assignKey w t k v).own k' =
      if k = "__proto__" then getProp t.own k'
      else if k = k' then some v else getProp t.own k' := by
  unfold assignKey
  by_cases h : k = "__proto__"
  · simp only [h, if_true]
  · simp only [h, if_false, getProp_setProp]

theorem getProp_foldl_assign (w : Window) (s : LinkMapping) (k : String) (ks : List String)
    (t : LinkObject) :
    getProp
        (ks.foldl
          (fun t k =>
            match getProp s k with
            | some v => assignKey w t k v
            | none => t)
          t).own k =
      if k ∈ ks ∧ k ≠ "__proto__" then
        match getProp s k with
        | some v => some v
        | none => getProp t.own k
      else getProp t.own k := by
  induction ks generalizing t with
  | nil => simp
  | cons k0 ks ih =>
    rw [List.foldl_cons, ih]
    by_cases hk : k0 = k
    · subst hk
      by_cases hp : k0 = "__proto__"
      · cases h0 : getProp s k0 with
        | none => simp
        | some v => simp [getProp_assignKey, hp]
      · cases h0 : getProp s k0 with
        | none => simp
        | some v => simp [getProp_assignKey, hp]
    · have hk2 : ¬ k = k0 := fun h => hk h.symm
      have hstep : getProp
          (match getProp s k0 with
          | some v => assignKey w t k0 v
          | none => t).own k = getProp t.own k := by
        cases h0 : getProp s k0 with
        | none => rfl
        | some v =>
          simp only [getProp_assignKey, hk, if_false]
          split_ifs <;> rfl
      rw [hstep]
      simp [hk2]

theorem getProp_assignFrom (w : Window) (t : LinkObject) (s : LinkMapping) (k : String) :
    getProp (assignFrom w t s).own k =
      if k = "__proto__" then getProp t.own k
      else
        match getProp s k with
        | some v => some v
        | none => getProp t.own k := by
  unfold assignFrom
  rw [getProp_foldl_assign]
  by_cases hp : k = "__proto__"
  · simp [hp]
  · cases hs : getProp s k with
    | none => simp [hp]
    | some v =>
      have hmem : k ∈ objectKeys s := by
        rw [mem_objectKeys, ← getProp_isSome_iff, hs]
        rfl
      simp [hmem, hp]

/-- The own properties of `Object.assign({}, old, src)`: the name `__proto__` is
never among them; any other name has the value that `src` gives it, else the
value that `old` gives it. -/
theorem getProp_objectAssign (w : Window) (old src : LinkMapping) (k : String) :
    getProp (objectAssign w [old, src]).own k =
      if k = "__proto__" then none
      else
        match getProp src k with
        | some v => some v
        | none => getProp old k := by
  simp only [objectAssign, List.foldl_cons, List.foldl_nil]
  rw [getProp_assignFrom, getProp_assignFrom]
  by_cases hp : k = "__proto__"
  · simp [hp, emptyObject, getProp]
  · simp only [hp, if_false, emptyObject, getProp]
    cases getProp src k with
    | some v => rfl
    | none => cases getProp old k <;> rfl

/-- The merge of `registerDailyLinks`: the call runs the pass on the page whose
mapping is `Object.assign({}, window.DAILY_LINKS || {}, patch)`; a group name
other than `__proto__` has in it the list that `patch` gives it, else the list
it had before, so that `promo: L1` followed by `promo: ["https://z.example"]`
leaves `promo` with the second list. -/
theorem registerDailyLinks_merge (p : Page) (patch : LinkMapping) (now : Nat) :
    ∃ merged : LinkObject,
      registerDailyLinks (.object patch) now p =
        runUpdate now { p with window := withLinks p.window merged } ∧
      ∀ k, k ≠ "__proto__" →
        getProp merged.own k =
          match getProp patch k with
          | some v => some v
          | none => getProp (currentMapping p.window).own k := by
  refine ⟨objectAssign p.window [(currentMapping p.window).own, patch], rfl, ?_⟩
  intro k hk
  rw [getProp_objectAssign]
  simp only [hk, if_false]

/-! ## Lemmas on the eligibility filter -/

theorem toLowerCase_eq_empty (s : String) : toLowerCase s = "" ↔ s = "" := by
  rcases s with ⟨cs⟩
  cases cs with
  | nil => simp [toLowerCase]
  | cons c cs =>
    have hc : lowerChar c ≠ [] := by
      unfold lowerChar
      split_ifs <;> simp
    constructor
    · intro h
      have h2 := congrArg String.data h
      simp only [toLowerCase, List.flatMap_cons] at h2
      have h3 : lowerChar c ++ List.flatMap cs lowerChar = [] := h2
      exact absurd (List.append_eq_nil.mp h3).1 hc
    · intro h
      exact absurd (congrArg String.data h) (by simp)

theorem startsWith_head (s p : String) (c : Char) (cs : List Char) (hp : p.data = c :: cs)
    (h : startsWith s p = true) : s.data.head? = some c := by
  unfold startsWith at h
  rw [hp] at h
  cases hs : s.data with
  | nil => rw [hs] at h; simp [List.isPrefixOf] at h
  | cons x xs =>
    rw [hs] at h
    simp only [List.isPrefixOf, Bool.and_eq_true, beq_iff_eq] at h
    simp [h.1]

theorem startsWith_false_of_head (s p : String) (c x : Char) (cs : List Char)
    (hp : p.data = c :: cs) (hs : s.data.head? = some x) (hne : x ≠ c) :
    startsWith s p = false := by
  cases h : startsWith s p with
  | false => rfl
  | true =>
    have := startsWith_head s p c cs hp h
    rw [hs] at this
    exact absurd (Option.some.inj this) hne

theorem head_of_isAbsoluteHttp (s : String) (h : isAbsoluteHttp s = true) :
    s.data.head? = some 'h' := by
  unfold isAbsoluteHttp at h
  rcases Bool.or_eq_true_iff.mp h with h1 | h1
  · exact startsWith_head s "http://" 'h' _ rfl h1
  · exact startsWith_head s "https://" 'h' _ rfl h1

theorem ne_empty_of_head (s : String) (x : Char) (h : s.data.head? = some x) : s ≠ "" := by
  intro hs
  subst hs
  simp at h

theorem isAbsoluteHttp_false_of_slash (s : String) (h : startsWith s "/" = true) :
    isAbsoluteHttp s = false := by
  have hh := startsWith_head s "/" '/' [] rfl h
  unfold isAbsoluteHttp
  rw [startsWith_false_of_head s "http://" 'h' '/' _ rfl hh (by decide),
    startsWith_false_of_head s "https://" 'h' '/' _ rfl hh (by decide)]
  rfl

theorem internalAllowed_iff (w : Window) (a : Element) :
    internalAllowed w a = true ↔ a.target = "_blank" ∧ w.DAILY_REPLACE_INTERNAL_BLANK = true := by
  simp [internalAllowed]

/-- The filter when the attribute is present and none of the exclusions of
line 68 applies. -/
theorem shouldReplaceAnchor_of_navigational (w : Window) (a : Element) (raw : String)
    (hraw : a.href = some raw) (hne : toLowerCase (trim raw) ≠ "")
    (h1 : startsWith (toLowerCase (trim raw)) "#" = false)
    (h2 : startsWith (toLowerCase (trim raw)) "javascript:" = false)
    (h3 : startsWith (toLowerCase (trim raw)) "mailto:" = false)
    (h4 : startsWith (toLowerCase (trim raw)) "tel:" = false)
    (h5 : startsWith (toLowerCase (trim raw)) "data:" = false) :
    shouldReplaceAnchor w a =
      if startsWith (toLowerCase (trim raw)) "/" then internalAllowed w a
      else if isAbsoluteHttp (toLowerCase (trim raw)) then
        match w.newURL raw with
        | some u => if u.hostname = w.location.hostname then internalAllowed w a else true
        | none => false
      else internalAllowed w a := by
  have hr : raw ≠ "" := by
    intro h
    subst h
    exact hne (by decide)
  simp only [shouldReplaceAnchor, hraw, hr, hne, h1, h2, h3, h4, h5, if_false, decide_False,
    Bool.or_self, Bool.false_eq_true]

theorem shouldReplaceAnchor_of_absolute (w : Window) (a : Element) (raw : String)
    (hraw : a.href = some raw) (habs : isAbsoluteHttp (toLowerCase (trim raw)) = true) :
    shouldReplaceAnchor w a =
      match w.newURL raw with
      | some u => if u.hostname = w.location.hostname then internalAllowed w a else true
      | none => false := by
  have hh := head_of_isAbsoluteHttp _ habs
  rw [shouldReplaceAnchor_of_navigational w a raw hraw (ne_empty_of_head _ _ hh)
    (startsWith_false_of_head _ "#" '#' 'h' _ rfl hh (by decide))
    (startsWith_false_of_head _ "javascript:" 'j' 'h' _ rfl hh (by decide))
    (startsWith_false_of_head _ "mailto:" 'm' 'h' _ rfl hh (by decide))
    (startsWith_false_of_head _ "tel:" 't' 'h' _ rfl hh (by decide))
    (startsWith_false_of_head _ "data:" 'd' 'h' _ rfl hh (by decide)),
    startsWith_false_of_head _ "/" '/' 'h' _ rfl hh (by decide), habs]
  simp only [Bool.false_eq_true, if_false, if_true]

/-! ## The claims -/

/-- C1: for a non-empty list `L` registered under group `g` and any day index
`d`, the URL selected is the entry of `L` at position `d mod len(L)`. The loop of
the pass reaches `g`, and at `g` it hands that URL to the elements the query
returns and goes on with the remaining keys, or the query throws. When the keys
of the mapping are plain the group-update phase returns a document in which
every `<a>` marked `g` has that URL as `href`. -/
theorem selected_url_is_entry_at_day_mod_length (w : Window) (m : LinkMapping) (g : String)
    (L : List String) (d : Nat) (doc : Document)
    (hg : getProp m g = some L) (hL : L ≠ []) :
    selectURL L d = some (L.get ⟨d % L.length, Nat.mod_lt d (List.length_pos.mpr hL)⟩) ∧
      updateGroup w m d doc g =
        (match selectGroup w g with
        | none => .threw doc
        | some selected =>
          .returned
            (forEachMatch selected
              (updateElement (L.get ⟨d % L.length, Nat.mod_lt d (List.length_pos.mpr hL)⟩))
              doc)) ∧
      (g ∈ objectKeys m ∧
        ∀ rest, updateGroups w m d (g :: rest) doc =
          (match selectGroup w g with
          | none => .threw doc
          | some selected =>
            updateGroups w m d rest
              (forEachMatch selected
                (updateElement (L.get ⟨d % L.length, Nat.mod_lt d (List.length_pos.mpr hL)⟩))
                doc))) ∧
      (plainKeys m = true →
        ∃ doc1, groupUpdates w m d doc = .returned doc1 ∧
          ∀ el ∈ elements doc1, el.dailyGroup = some g → isAnchor el = true →
            el.href = some (L.get ⟨d % L.length, Nat.mod_lt d (List.length_pos.mpr hL)⟩)) := by
  have hcb : updateGroup w m d doc g =
      (match selectGroup w g with
      | none => .threw doc
      | some selected =>
        .returned
          (forEachMatch selected
            (updateElement (L.get ⟨d % L.length, Nat.mod_lt d (List.length_pos.mpr hL)⟩))
            doc)) := by
    simp only [updateGroup, hg, length_ne_zero_of_ne_nil L hL, if_false,
      selectURL_of_ne_nil L d hL, toDOMString]
  refine ⟨selectURL_of_ne_nil L d hL, hcb, ⟨?_, ?_⟩, ?_⟩
  · rw [mem_objectKeys, ← getProp_isSome_iff, hg]
    rfl
  · intro rest
    simp only [updateGroups, hcb]
    cases selectGroup w g <;> rfl
  · intro hplain
    refine ⟨_, groupUpdates_plain w m d doc hplain, ?_⟩
    intro el hel hm ha
    obtain ⟨e0, _, he⟩ := mem_elements_transform _ _ _ hel
    have hm0 : e0.dailyGroup = some g := by
      rw [← groupStep_fst_dailyGroup m d e0, ← he]
      exact hm
    have ha0 : isAnchor e0 = true := by
      rw [← isAnchor_groupStep m d e0, ← he]
      exact ha
    rw [he, groupStep_of_getProp m d g L e0 hg hL hm0, updateElement_fst,
      updateAttributes_anchor _ _ ha0]
    rfl

/-- Witness for C1: the list of the end-to-end example on day 7 selects
`https://b.example`, and after the group-update phase on the example document
every `<a>` marked `promo` has it as `href`. -/
theorem selected_url_example_day_seven :
    (getProp [("promo", promoLinks)] "promo" = some promoLinks ∧ promoLinks ≠ []) ∧
      selectURL promoLinks 7 = some "https://b.example" ∧
      ∃ doc1, groupUpdates (exampleWindow false false) [("promo", promoLinks)] 7
          exampleDocument = .returned doc1 ∧
        ∀ el ∈ elements doc1, el.dailyGroup = some "promo" → isAnchor el = true →
          el.href = some "https://b.example" := by
  have h := selected_url_is_entry_at_day_mod_length (exampleWindow false false)
    [("promo", promoLinks)] "promo" promoLinks 7 exampleDocument (by decide) (by decide)
  refine ⟨⟨by decide, by decide⟩, h.1.trans (by decide), ?_⟩
  obtain ⟨doc1, h1, h2⟩ := h.2.2.2 (by decide)
  exact ⟨doc1, h1, fun el hel hm ha => (h2 el hel hm ha).trans (by decide)⟩

/-- C2, the failing input: the mapping has the keys `x"],[href="/z` with list
`["/w"]` and `x"],[href="/y` with list `["/z"]`, the document is one unmarked
`<a href="/y">`, bulk replacement is off.  The first pass leaves `href` equal to
`/z`, the second pass changes it to `/w`. -/
theorem injected_selectors_break_idempotence :
    updateOnce injectedWindow 7 (single (exampleAnchor "/y" "")) =
        .returned (single (exampleAnchor "/z" "")) ∧
      updateOnce injectedWindow 7 (single (exampleAnchor "/z" "")) =
        .returned (single (exampleAnchor "/w" "")) := by
  decide

/-- C3: for an anchor whose trimmed, lower-cased `href` matches the absolute
`http://` or `https://` pattern, `shouldReplaceAnchor` is true whenever the URL
resolves to a host name other than the page's, whatever the target and the
flag; when the host name is the page's it is true exactly when the target is
`_blank` and the allow-internal-new-tab flag is set; when resolution fails it
is false. -/
theorem shouldReplaceAnchor_absolute_http (w : Window) (a : Element) (raw : String)
    (hraw : a.href = some raw) (habs : isAbsoluteHttp (toLowerCase (trim raw)) = true) :
    (∀ u, w.newURL raw = some u → u.hostname ≠ w.location.hostname →
        shouldReplaceAnchor w a = true) ∧
      (∀ u, w.newURL raw = some u → u.hostname = w.location.hostname →
        (shouldReplaceAnchor w a = true ↔
          a.target = "_blank" ∧ w.DAILY_REPLACE_INTERNAL_BLANK = true)) ∧
      (w.newURL raw = none → shouldReplaceAnchor w a = false) := by
  have hh := head_of_isAbsoluteHttp _ habs
  have hs : startsWith (toLowerCase (trim raw)) "/" = false :=
    startsWith_false_of_head _ "/" '/' 'h' _ rfl hh (by decide)
  have key := shouldReplaceAnchor_of_navigational w a raw hraw (ne_empty_of_head _ _ hh)
    (startsWith_false_of_head _ "#" '#' 'h' _ rfl hh (by decide))
    (startsWith_false_of_head _ "javascript:" 'j' 'h' _ rfl hh (by decide))
    (startsWith_false_of_head _ "mailto:" 'm' 'h' _ rfl hh (by decide))
    (startsWith_false_of_head _ "tel:" 't' 'h' _ rfl hh (by decide))
    (startsWith_false_of_head _ "data:" 'd' 'h' _ rfl hh (by decide))
  rw [hs, habs] at key
  simp only [Bool.false_eq_true, if_false, if_true] at key
  refine ⟨?_, ?_, ?_⟩
  · intro u hu hne
    rw [key, hu]
    simp [hne]
  · intro u hu heq
    rw [key, hu]
    simp only [heq, if_true]
    exact internalAllowed_iff w a
  · intro hu
    rw [key, hu]

/-- Witness for C3: on the page at `example.com`, an anchor to
`https://external.example/x` is eligible with no target and the flag off, an
anchor to `https://example.com/about` is not, and an absolute URL that does not
resolve is not. -/
theorem shouldReplaceAnchor_absolute_http_examples :
    shouldReplaceAnchor (exampleWindow true false)
        (exampleAnchor "https://external.example/x" "") = true ∧
      shouldReplaceAnchor (exampleWindow true false)
        (exampleAnchor "https://example.com/about" "") = false ∧
      shouldReplaceAnchor (exampleWindow true true)
        (exampleAnchor "https://example.com/about" "_blank") = true ∧
      shouldReplaceAnchor (exampleWindow true true)
        (exampleAnchor "http://[" "_blank") = false := by
  refine ⟨?_, ?_, ?_, ?_⟩
  · exact (shouldReplaceAnchor_absolute_http (exampleWindow true false)
      (exampleAnchor "https://external.example/x" "") "https://external.example/x" rfl
      (by decide)).1 ⟨"https:", "external.example", ""⟩ (by decide) (by decide)
  · have h := ((shouldReplaceAnchor_absolute_http (exampleWindow true false)
      (exampleAnchor "https://example.com/about" "") "https://example.com/about" rfl
      (by decide)).2.1 ⟨"https:", "example.com", ""⟩ (by decide) (by decide))
    cases hb : shouldReplaceAnchor (exampleWindow true false)
        (exampleAnchor "https://example.com/about" "") with
    | false => rfl
    | true => exact absurd (h.mp hb).1 (by decide)
  · exact ((shouldReplaceAnchor_absolute_http (exampleWindow true true)
      (exampleAnchor "https://example.com/about" "_blank") "https://example.com/about" rfl
      (by decide)).2.1 ⟨"https:", "example.com", ""⟩ (by decide) (by decide)).mpr
      ⟨by decide, by decide⟩
  · exact (shouldReplaceAnchor_absolute_http (exampleWindow true true)
      (exampleAnchor "http://[" "_blank") "http://[" rfl (by decide)).2.2 (by decide)

/-- C4: for an anchor whose trimmed `href` is non-empty, starts with none of
`#`, `javascript:`, `mailto:`, `tel:`, `data:` (case-insensitively), and is
root-relative or not an absolute `http(s)` URL, `shouldReplaceAnchor` is true
if and only if the target is `_blank` and the allow-internal-new-tab flag is
set. -/
theorem shouldReplaceAnchor_internal (w : Window) (a : Element) (raw : String)
    (hraw : a.href = some raw) (hne : trim raw ≠ "")
    (h1 : startsWith (toLowerCase (trim raw)) "#" = false)
    (h2 : startsWith (toLowerCase (trim raw)) "javascript:" = false)
    (h3 : startsWith (toLowerCase (trim raw)) "mailto:" = false)
    (h4 : startsWith (toLowerCase (trim raw)) "tel:" = false)
    (h5 : startsWith (toLowerCase (trim raw)) "data:" = false)
    (hrel : startsWith (toLowerCase (trim raw)) "/" = true ∨
      isAbsoluteHttp (toLowerCase (trim raw)) = false) :
    shouldReplaceAnchor w a = true ↔
      a.target = "_blank" ∧ w.DAILY_REPLACE_INTERNAL_BLANK = true := by
  have hne2 : toLowerCase (trim raw) ≠ "" := fun h => hne ((toLowerCase_eq_empty _).mp h)
  rw [shouldReplaceAnchor_of_navigational w a raw hraw hne2 h1 h2 h3 h4 h5]
  rcases hrel with hs | hn
  · simp only [hs, if_true]
    exact internalAllowed_iff w a
  · by_cases hs : startsWith (toLowerCase (trim raw)) "/" = true
    · simp only [hs, if_true]
      exact internalAllowed_iff w a
    · simp only [hs, hn, if_false, Bool.false_eq_true]
      exact internalAllowed_iff w a

/-- Witness for C4: `/internal/path` is ineligible without the `_blank` target
or without the flag and eligible with both; so is the relative path
`page.html`. -/
theorem shouldReplaceAnchor_internal_examples :
    shouldReplaceAnchor (exampleWindow true true) (exampleAnchor "/internal/path" "") = false ∧
      shouldReplaceAnchor (exampleWindow true false)
        (exampleAnchor "/internal/path" "_blank") = false ∧
      shouldReplaceAnchor (exampleWindow true true)
        (exampleAnchor "/internal/path" "_blank") = true ∧
      shouldReplaceAnchor (exampleWindow true true) (exampleAnchor "page.html" "_blank") = true := by
  have h1 := shouldReplaceAnchor_internal (exampleWindow true true)
    (exampleAnchor "/internal/path" "") "/internal/path" rfl (by decide) (by decide)
    (by decide) (by decide) (by decide) (by decide) (Or.inl (by decide))
  have h2 := shouldReplaceAnchor_internal (exampleWindow true false)
    (exampleAnchor "/internal/path" "_blank") "/internal/path" rfl (by decide) (by decide)
    (by decide) (by decide) (by decide) (by decide) (Or.inl (by decide))
  have h3 := shouldReplaceAnchor_internal (exampleWindow true true)
    (exampleAnchor "/internal/path" "_blank") "/internal/path" rfl (by decide) (by decide)
    (by decide) (by decide) (by decide) (by decide) (Or.inl (by decide))
  have h4 := shouldReplaceAnchor_internal (exampleWindow true true)
    (exampleAnchor "page.html" "_blank") "page.html" rfl (by decide) (by decide)
    (by decide) (by decide) (by decide) (by decide) (Or.inr (by decide))
  refine ⟨?_, ?_, h3.mpr ⟨by decide, by decide⟩, h4.mpr ⟨by decide, by decide⟩⟩
  · cases hb : shouldReplaceAnchor (exampleWindow true true)
        (exampleAnchor "/internal/path" "") with
    | false => rfl
    | true => exact absurd (h1.mp hb).1 (by decide)
  · cases hb : shouldReplaceAnchor (exampleWindow true false)
        (exampleAnchor "/internal/path" "_blank") with
    | false => rfl
    | true => exact absurd (h2.mp hb).2 (by decide)

/-- C5: an anchor with no `href` attribute, or whose `href` is empty after
trimming, or whose trimmed `href` starts case-insensitively with `#`,
`javascript:`, `mailto:`, `tel:` or `data:`, is never eligible, whatever its
target and whatever the flags of the window. -/
theorem shouldReplaceAnchor_excluded (w : Window) (a : Element)
    (h : a.href = none ∨ ∃ raw, a.href = some raw ∧
      (trim raw = "" ∨
        startsWith (toLowerCase (trim raw)) "#" = true ∨
        startsWith (toLowerCase (trim raw)) "javascript:" = true ∨
        startsWith (toLowerCase (trim raw)) "mailto:" = true ∨
        startsWith (toLowerCase (trim raw)) "tel:" = true ∨
        startsWith (toLowerCase (trim raw)) "data:" = true)) :
    shouldReplaceAnchor w a = false := by
  rcases h with h | ⟨raw, hraw, h⟩
  · simp only [shouldReplaceAnchor, h]
  · simp only [shouldReplaceAnchor, hraw]
    by_cases hr : raw = ""
    · simp only [hr, if_true]
    · simp only [hr, if_false]
      rcases h with h | h | h | h | h | h
      · have : toLowerCase (trim raw) = "" := (toLowerCase_eq_empty _).mpr h
        simp [this]
      all_goals simp [h]

/-- Witness for C5: `#section`, `javascript:void(0)` and a blank `href` are
ineligible even with the `_blank` target and every flag set, as is an anchor
without `href`. -/
theorem shouldReplaceAnchor_excluded_examples :
    shouldReplaceAnchor (exampleWindow true true) (exampleAnchor "#section" "_blank") = false ∧
      shouldReplaceAnchor (exampleWindow true true)
        (exampleAnchor "JavaScript:void(0)" "_blank") = false ∧
      shouldReplaceAnchor (exampleWindow true true) (exampleAnchor "   " "_blank") = false ∧
      shouldReplaceAnchor (exampleWindow true true) (exampleElement "A" none none) = false :=
  ⟨shouldReplaceAnchor_excluded _ _ (Or.inr ⟨"#section", rfl, Or.inr (Or.inl (by decide))⟩),
    shouldReplaceAnchor_excluded _ _
      (Or.inr ⟨"JavaScript:void(0)", rfl, Or.inr (Or.inr (Or.inl (by decide)))⟩),
    shouldReplaceAnchor_excluded _ _ (Or.inr ⟨"   ", rfl, Or.inl (by decide)⟩),
    shouldReplaceAnchor_excluded _ _ (Or.inl rfl)⟩

/-- Counterexample to C6 as stated: the `<div>` is marked `promo`, is not an
`<a>`, has no `href` and no `data-daily-text`, and holds a mirroring `<a>`; its
text content is `see link` before the group-update phase and
`see https://b.example` after it. -/
theorem marked_container_text_changes :
    plainKeys [("promo", promoLinks)] = true ∧
      (elementAt (nestedDocument (some "promo")) [0]).map
          (fun node => (node.1.dailyGroup, node.1.dailyText, textContent node.2)) =
        some (some "promo", none, "see link") ∧
      ∃ doc1, groupUpdates (exampleWindow false false) [("promo", promoLinks)] 7
          (nestedDocument (some "promo")) = .returned doc1 ∧
        (elementAt doc1 [0]).map (fun node => textContent node.2) =
          some "see https://b.example" :=
  ⟨by decide, by decide, _, rfl, by decide⟩

/-- C6, amended: when the group names of the mapping are plain, the
group-update phase returns, and for a group `g` with non-empty list and selected
URL `u`, an element marked `g` that lies in no mirroring element ends the phase
(i) with `href` equal to `u` if it is an `<a>`; (ii) with `href` equal to `u` and
`data-daily-selected` unchanged if it is not an `<a>` but had an `href`;
(iii) with `data-daily-selected` equal to `u` and still no `href` otherwise.  Its
text content is `u` if `data-daily-text` is `true`; otherwise its children are
what the phase makes of them, and its text content is unchanged when no element
below it mirrors. -/
theorem groupUpdates_three_way (w : Window) (m : LinkMapping) (d : Nat) (doc : Document)
    (g : String) (L : List String) (path : List Nat) (el : Element) (children : Forest)
    (hplain : plainKeys m = true) (hg : getProp m g = some L) (hL : L ≠ [])
    (hp : elementAt doc path = some (el, children)) (hm : el.dailyGroup = some g)
    (hanc : ∀ a ∈ ancestorsAt doc path, mirrors m a = false) :
    ∃ u el1 children1 doc1, selectURL L d = some u ∧
      groupUpdates w m d doc = .returned doc1 ∧
      elementAt doc1 path = some (el1, children1) ∧
      (isAnchor el = true → el1.href = some u) ∧
      (isAnchor el = false → el.href.isSome = true →
        el1.href = some u ∧ el1.dailySelected = el.dailySelected) ∧
      (isAnchor el = false → el.href = none →
        el1.dailySelected = some u ∧ el1.href = none) ∧
      (el.dailyText = some "true" → textContent children1 = u) ∧
      (el.dailyText ≠ some "true" →
        groupUpdates w m d children = .returned children1 ∧
        ((∀ e ∈ elements children, mirrors m e = false) →
          textContent children1 = textContent children)) := by
  obtain ⟨doc1, children1, h1, h2, h3, h4⟩ :=
    elementAt_groupUpdates w m d doc path el children hplain hp hanc
  have hstep := groupStep_of_getProp m d g L el hg hL hm
  rw [hstep, updateElement_fst] at h2
  rw [hstep, updateElement_snd] at h4
  refine ⟨L.get ⟨d % L.length, Nat.mod_lt d (List.length_pos.mpr hL)⟩, _, children1, doc1,
    selectURL_of_ne_nil L d hL, h1, h2, ?_, ?_, ?_, ?_, ?_⟩
  · intro ha
    rw [updateAttributes_anchor _ _ ha]
    rfl
  · intro ha hh
    rw [updateAttributes_with_href _ _ ha hh]
    exact ⟨rfl, rfl⟩
  · intro ha hh
    rw [updateAttributes_without_href _ _ ha hh]
    exact ⟨rfl, hh⟩
  · intro ht
    rw [h4 _ (by rw [if_pos ht]), textContent_textNodes]
  · intro ht
    have hmir : mirrors m el = false := by
      rw [← groupStep_snd m d el, hstep, updateElement_snd, if_neg ht]
    have hc := h3 hmir
    refine ⟨hc, ?_⟩
    intro hdesc
    rw [groupUpdates_plain w m d children hplain] at hc
    cases hc
    exact textContent_transform _ _ (fun e he => (groupStep_snd m d e).mpr (hdesc e he))

/-- Witness for C6, amended: with the mapping `promo: [a, b, c]` on day 7, the
marked `<span>` without `href` and with `data-daily-text="true"`, third in the
example document, gets the URL in `data-daily-selected` and as text content and
still has no `href`. -/
theorem groupUpdates_three_way_example :
    ∃ u el1 children1 doc1, selectURL promoLinks 7 = some u ∧
      groupUpdates (exampleWindow false false) [("promo", promoLinks)] 7 exampleDocument =
        .returned doc1 ∧
      elementAt doc1 [2] = some (el1, children1) ∧
      el1.dailySelected = some u ∧ el1.href = none ∧ textContent children1 = u := by
  obtain ⟨u, el1, children1, doc1, h1, h2, h3, _, _, h6, h7, _⟩ :=
    groupUpdates_three_way (exampleWindow false false) [("promo", promoLinks)] 7
      exampleDocument "promo" promoLinks [2] exampleMirror (.text "link" .nil)
      (by decide) (by decide) (by decide) (by decide) (by decide) (by decide)
  exact ⟨u, el1, children1, doc1, h1, h2, h3, (h6 (by decide) (by decide)).1,
    (h6 (by decide) (by decide)).2, h7 (by decide)⟩

/-- Counterexample to C7 as stated: with the mapping `promo: [a, b, c]` on day
7 the selected URL is `https://b.example`, yet a marked `<span>` without `href`
ends the pass with no `href`, and, on a page with bulk replacement enabled and
default group `main`, a marked `<a>` ends the pass with the URL of `main`. -/
theorem marked_element_href_differs_from_selected :
    selectURL promoLinks 7 = some "https://b.example" ∧
      updateOnce (exampleWindow false false) 7
          (single (exampleElement "SPAN" (some "promo") none)) =
        .returned
          (single
            { exampleElement "SPAN" (some "promo") none with
              dailySelected := some "https://b.example" }) ∧
      updateOnce (twoGroupWindow ["https://z.example"]) 7
          (single (exampleElement "A" (some "promo") none)) =
        .returned (single (exampleElement "A" (some "promo") (some "https://z.example"))) := by
  decide

/-- C7, amended: when the group names of the mapping are plain, the pass
returns, and for a group `g` with non-empty list and selected URL `u`, an
element marked `g` that lies in no mirroring element ends the pass as follows.
An `<a>` has `href` equal to `u` unless bulk replacement applies to it, in which
case its `href` is the URL that bulk replacement applies; an element that is not
an `<a>` but had an `href` has `href` equal to `u`; an element that is neither
still has no `href` and carries `u` in `data-daily-selected`. -/
theorem marked_element_link_after_pass (w : Window) (d : Nat) (doc : Document) (g : String)
    (L : List String) (path : List Nat) (el : Element) (children : Forest)
    (hplain : plainKeys (currentMapping w).own = true)
    (hg : getProp (currentMapping w).own g = some L) (hL : L ≠ [])
    (hp : elementAt doc path = some (el, children)) (hm : el.dailyGroup = some g)
    (hanc : ∀ a ∈ ancestorsAt doc path, mirrors (currentMapping w).own a = false) :
    ∃ u el1 children1 doc1, selectURL L d = some u ∧
      updateOnce w d doc = .returned doc1 ∧
      elementAt doc1 path = some (el1, children1) ∧
      (isAnchor el = true →
        (bulkURL w (currentMapping w) d = none ∨
          shouldReplaceAnchor w (setHref el u) = false) →
        el1.href = some u) ∧
      (isAnchor el = true → ∀ v, bulkURL w (currentMapping w) d = some v →
        shouldReplaceAnchor w (setHref el u) = true → el1.href = some v) ∧
      (isAnchor el = false → el.href.isSome = true → el1.href = some u) ∧
      (isAnchor el = false → el.href = none →
        el1.href = none ∧ el1.dailySelected = some u) := by
  obtain ⟨doc1, children1, h1, h2, _, _⟩ :=
    elementAt_updateOnce w d doc path el children hplain hp hanc
  have hstep := groupStep_of_getProp (currentMapping w).own d g L el hg hL hm
  simp only [passStep, hstep, updateElement_fst] at h2
  refine ⟨L.get ⟨d % L.length, Nat.mod_lt d (List.length_pos.mpr hL)⟩, _, children1, doc1,
    selectURL_of_ne_nil L d hL, h1, h2, ?_, ?_, ?_, ?_⟩
  · intro ha hno
    rw [updateAttributes_anchor _ _ ha]
    unfold bulkStep
    cases hb : bulkURL w (currentMapping w) d with
    | none => rfl
    | some v =>
      rcases hno with hno | hno
      · rw [hb] at hno; exact absurd hno (by simp)
      · have ha2 : isAnchor (setHref el
            (L.get ⟨d % L.length, Nat.mod_lt d (List.length_pos.mpr hL)⟩)) = true := ha
        simp only [ha2, if_true, replaceAnchor, hno, Bool.false_eq_true, if_false]
        rfl
  · intro ha v hb hs
    rw [updateAttributes_anchor _ _ ha]
    have ha2 : isAnchor (setHref el
        (L.get ⟨d % L.length, Nat.mod_lt d (List.length_pos.mpr hL)⟩)) = true := ha
    simp only [bulkStep, hb, ha2, if_true, replaceAnchor, hs]
    rfl
  · intro ha hh
    rw [bulkStep_of_not_anchor _ _ _ _ ((isAnchor_updateAttributes _ el).trans ha),
      updateAttributes_with_href _ _ ha hh]
    rfl
  · intro ha hh
    rw [bulkStep_of_not_anchor _ _ _ _ ((isAnchor_updateAttributes _ el).trans ha),
      updateAttributes_without_href _ _ ha hh]
    exact ⟨hh, rfl⟩

/-- Witness for C7, amended: with the mapping `promo: [a, b, c]`, day 7 and bulk
replacement off, the marked `<a>` of the example document ends the pass with
`href` equal to `https://b.example`. -/
theorem marked_anchor_link_example :
    ∃ el1 children1 doc1, updateOnce (exampleWindow false false) 7 exampleDocument =
        .returned doc1 ∧
      elementAt doc1 [0] = some (el1, children1) ∧
      el1.href = some "https://b.example" := by
  obtain ⟨u, el1, children1, doc1, h1, h2, h3, h4, _, _, _⟩ :=
    marked_element_link_after_pass (exampleWindow false false) 7 exampleDocument "promo"
      promoLinks [0] (exampleElement "A" (some "promo") none) (.text "link" .nil)
      (by decide) (by decide) (by decide) (by decide) (by decide) (by decide)
  have hu : u = "https://b.example" := by
    have : selectURL promoLinks 7 = some "https://b.example" := by decide
    rw [h1] at this
    exact Option.some.inj this
  exact ⟨el1, children1, doc1, h2, h3, hu ▸ h4 (by decide) (Or.inl (by decide))⟩

/-- Counterexample to C8 as stated. With bulk replacement enabled, the list of
the default group `main` decides the `href` of the `<a>` marked `promo`:
`https://z.example` under one list of `main`, `https://y.example` under
another. With bulk replacement off, the text content of a `<div>` marked `wrap`
that holds a mirroring `<a>` marked `promo` follows the list of `promo`. -/
theorem other_group_list_changes_marked_element :
    updateOnce (twoGroupWindow ["https://z.example"]) 7
          (single (exampleElement "A" (some "promo") none)) =
        .returned (single (exampleElement "A" (some "promo") (some "https://z.example"))) ∧
      updateOnce (twoGroupWindow ["https://y.example"]) 7
          (single (exampleElement "A" (some "promo") none)) =
        .returned (single (exampleElement "A" (some "promo") (some "https://y.example"))) ∧
      (∃ doc1 doc2,
        updateOnce (wrapWindow promoLinks ["https://w.example"]) 7
            (nestedDocument (some "wrap")) = .returned doc1 ∧
        updateOnce (wrapWindow ["https://z.example"] ["https://w.example"]) 7
            (nestedDocument (some "wrap")) = .returned doc2 ∧
        textContent doc1 = "see https://b.example" ∧
        textContent doc2 = "see https://z.example") := by
  refine ⟨by decide, by decide, _, _, rfl, rfl, by decide, by decide⟩

/-- C8, amended: let two mappings on the same prototype have the same plain
keys and the same lists except for group `A`, and let an element marked with
another group `B` lie in no element that mirrors under either mapping. Then the
pass returns under both mappings and leaves the element with the same
attributes, provided bulk replacement is off, or `A` is not the default group,
or the element is not an `<a>`, or the filter rejects it after the group-update
phase; and its text content is the same under both when no element inside it
that is marked `A` mirrors its link as text. -/
theorem group_isolation (w : Window) (inh : Inherited) (m1 m2 : LinkMapping) (A B : String)
    (d : Nat) (doc : Document) (path : List Nat) (el : Element) (children : Forest)
    (hkeys : m1.map Prod.fst = m2.map Prod.fst)
    (hsame : ∀ k, k ≠ A → getProp m1 k = getProp m2 k)
    (hplain : plainKeys m1 = true) (hAB : B ≠ A)
    (hp : elementAt doc path = some (el, children)) (hm : el.dailyGroup = some B)
    (hanc1 : ∀ a ∈ ancestorsAt doc path, mirrors m1 a = false)
    (hanc2 : ∀ a ∈ ancestorsAt doc path, mirrors m2 a = false)
    (hbulk : w.DAILY_REPLACE_ALL = false ∨ defaultGroup w m1 ≠ some A ∨ isAnchor el = false ∨
      shouldReplaceAnchor w (groupStep m1 d el).1 = false) :
    ∃ doc1 doc2 el1 children1 children2,
      updateOnce (withLinks w ⟨m1, inh⟩) d doc = .returned doc1 ∧
      updateOnce (withLinks w ⟨m2, inh⟩) d doc = .returned doc2 ∧
      elementAt doc1 path = some (el1, children1) ∧
      elementAt doc2 path = some (el1, children2) ∧
      ((∀ e ∈ elements children, e.dailyGroup = some A → e.dailyText ≠ some "true") →
        textContent children1 = textContent children2) := by
  have hplain2 : plainKeys m2 = true := (plainKeys_congr m1 m2 hkeys) ▸ hplain
  obtain ⟨doc1, c1, h11, h12, h13, h14⟩ :=
    elementAt_updateOnce (withLinks w ⟨m1, inh⟩) d doc path el children hplain hp hanc1
  obtain ⟨doc2, c2, h21, h22, h23, h24⟩ :=
    elementAt_updateOnce (withLinks w ⟨m2, inh⟩) d doc path el children hplain2 hp hanc2
  have hstep : groupStep m1 d el = groupStep m2 d el :=
    groupStep_congr m1 m2 d el fun g hg =>
      hsame g (by rw [hm] at hg; exact (Option.some.inj hg) ▸ hAB)
  have hel : (passStep (withLinks w ⟨m1, inh⟩) d el).1 =
      (passStep (withLinks w ⟨m2, inh⟩) d el).1 := by
    simp only [passStep, currentMapping_withLinks, bulkStep_withLinks, ← hstep]
    rcases hbulk with hb | hb | hb | hb
    · rw [bulkStep_of_flag_off _ _ _ _ hb, bulkStep_of_flag_off _ _ _ _ hb]
    · simp only [bulkStep]
      rw [bulkURL_congr w m1 m2 inh d hkeys fun g hg =>
        hsame g (fun hgA => hb (hgA ▸ hg))]
    · have hna : isAnchor (groupStep m1 d el).1 = false := (isAnchor_groupStep m1 d el).trans hb
      rw [bulkStep_of_not_anchor _ _ _ _ hna, bulkStep_of_not_anchor _ _ _ _ hna]
    · rw [bulkStep_of_not_eligible _ _ _ _ hb, bulkStep_of_not_eligible _ _ _ _ hb]
  refine ⟨doc1, doc2, _, c1, c2, h11, h21, h12, hel ▸ h22, ?_⟩
  intro hdesc
  simp only [currentMapping_withLinks] at h13 h14 h23 h24
  cases hsnd : (groupStep m1 d el).2 with
  | some v =>
    rw [h14 v hsnd, h24 v (hstep ▸ hsnd)]
  | none =>
    have hmir1 := (groupStep_snd m1 d el).mp hsnd
    have hmir2 := (groupStep_snd m2 d el).mp (hstep ▸ hsnd)
    have e1 := (updateOnce_plain (withLinks w ⟨m1, inh⟩) d children hplain).symm.trans (h13 hmir1)
    have e2 := (updateOnce_plain (withLinks w ⟨m2, inh⟩) d children hplain2).symm.trans
      (h23 hmir2)
    rw [← Completion.returned.inj e1, ← Completion.returned.inj e2]
    apply textContent_transform_congr
    intro e he
    simp only [passStep_snd, currentMapping_withLinks]
    by_cases heA : e.dailyGroup = some A
    · rw [(groupStep_snd m1 d e).mpr (mirrors_of_no_text m1 e (hdesc e he heA)),
        (groupStep_snd m2 d e).mpr (mirrors_of_no_text m2 e (hdesc e he heA))]
    · rw [groupStep_congr m1 m2 d e fun g hg => hsame g (fun hgA => heA (hgA ▸ hg))]

/-- Witness for C8, amended: on the example page with bulk replacement enabled
and default group `main`, the `<area>` marked `promo` of the example document
ends the pass the same whether the list of `main` is `[z]` or `[y]`. -/
theorem group_isolation_example :
    ∃ doc1 doc2 el1 children1 children2,
      updateOnce
          (withLinks (exampleWindow true false)
            ⟨[("main", ["https://z.example"]), ("promo", promoLinks)], examplePrototype⟩)
          7 exampleDocument = .returned doc1 ∧
      updateOnce
          (withLinks (exampleWindow true false)
            ⟨[("main", ["https://y.example"]), ("promo", promoLinks)], examplePrototype⟩)
          7 exampleDocument = .returned doc2 ∧
      elementAt doc1 [1] = some (el1, children1) ∧
      elementAt doc2 [1] = some (el1, children2) ∧
      ((∀ e ∈ elements (Forest.text "link" .nil),
          e.dailyGroup = some "main" → e.dailyText ≠ some "true") →
        textContent children1 = textContent children2) :=
  group_isolation (exampleWindow true false) examplePrototype
    [("main", ["https://z.example"]), ("promo", promoLinks)]
    [("main", ["https://y.example"]), ("promo", promoLinks)] "main" "promo" 7 exampleDocument
    [1] (exampleElement "AREA" (some "promo") (some "/old")) (.text "link" .nil)
    (by decide)
    (fun k hk => by
      have hk2 : ¬ "main" = k := fun h => hk h.symm
      simp only [getProp, hk2, if_false])
    (by decide) (by decide) (by decide) (by decide) (by decide) (by decide)
    (Or.inr (Or.inr (Or.inl (by decide))))

/-- C9, the failing input: on the example page, whose mapping is
`{promo: [a, b, c]}`, registering an object whose one own key is `__proto__`
with the list `["https://z.example"]` returns with a mapping that still has the
single own key `promo` and no own key `__proto__`, and the pass that follows
leaves the `<a>` marked `__proto__` without `href`. -/
theorem registerDailyLinks_drops_proto_key :
    ∃ p1,
      registerDailyLinks (JSValue.object [("__proto__", ["https://z.example"])]) 0
          ⟨exampleWindow false false, single (exampleElement "A" (some "__proto__") none)⟩ =
        .returned p1 ∧
      (currentMapping p1.window).own = [("promo", promoLinks)] ∧
      getProp (currentMapping p1.window).own "__proto__" = none ∧
      p1.document = single (exampleElement "A" (some "__proto__") none) :=
  ⟨_, rfl, by decide, by decide, by decide⟩

/-- C10, the failing input: on a page with bulk replacement enabled whose
mapping is `{"": ["https://z.example"]}`, the first key is the empty string and
its list is not empty. The group-update phase serves that group: the `<a>`
marked with the empty name gets `href` `https://z.example`. The guard of line 55
then stops bulk replacement: the unmarked `<a>` that points to another host,
for which `shouldReplaceAnchor` holds, keeps its `href`. -/
theorem bulk_replacement_skips_empty_group_name :
    (objectKeys (currentMapping (emptyNameWindow [])).own).head? = some "" ∧
      getProp (currentMapping (emptyNameWindow [])).own "" = some ["https://z.example"] ∧
      shouldReplaceAnchor (emptyNameWindow []) (exampleAnchor "https://external.example/x" "") =
        true ∧
      updateOnce (emptyNameWindow []) 7 emptyNameDocument =
        .returned
          (.element (exampleElement "A" (some "") (some "https://z.example"))
            (.text "link" .nil)
            (.element (exampleAnchor "https://external.example/x" "") (.text "out" .nil)
              .nil)) := by
  decide

/-- C11: `registerDailyLinks` called with `undefined`, `null` or any other value
that is not an object returns, without raising, the page as it was: the mapping
and the other globals are unchanged and no element of the document is
modified. -/
theorem registerDailyLinks_ignores_non_object (v : JSValue) (now : Nat) (p : Page)
    (hv : ∀ o, v ≠ JSValue.object o) : registerDailyLinks v now p = .returned p := by
  cases v with
  | object o => exact absurd rfl (hv o)
  | undefined => rfl
  | null => rfl
  | boolean b => rfl
  | number n => rfl
  | string s => rfl

/-- Witness for C11: registering `null`, `undefined`, `0` or the string
`"promo"` on the example page returns the page with its mapping and its
document as they were. -/
theorem registerDailyLinks_ignores_null_example :
    registerDailyLinks JSValue.null 0 ⟨exampleWindow true true, exampleDocument⟩ =
        .returned ⟨exampleWindow true true, exampleDocument⟩ ∧
      registerDailyLinks JSValue.undefined 0 ⟨exampleWindow true true, exampleDocument⟩ =
        .returned ⟨exampleWindow true true, exampleDocument⟩ ∧
      registerDailyLinks (JSValue.number 0) 0 ⟨exampleWindow true true, exampleDocument⟩ =
        .returned ⟨exampleWindow true true, exampleDocument⟩ ∧
      registerDailyLinks (JSValue.string "promo") 0
          ⟨exampleWindow true true, exampleDocument⟩ =
        .returned ⟨exampleWindow true true, exampleDocument⟩ :=
  ⟨registerDailyLinks_ignores_non_object JSValue.null 0 _ (fun o h => by cases h),
    registerDailyLinks_ignores_non_object JSValue.undefined 0 _ (fun o h => by cases h),
    registerDailyLinks_ignores_non_object (JSValue.number 0) 0 _ (fun o h => by cases h),
    registerDailyLinks_ignores_non_object (JSValue.string "promo") 0 _ (fun o h => by cases h)⟩

/-- Counterexample to C12 as stated: the list has two entries, both the same
URL, and the URL selected on day 1 is the URL selected on day 0. -/
theorem repeated_entry_keeps_selection :
    2 ≤ repeatedLinks.length ∧ selectURL repeatedLinks (0 + 1) = selectURL repeatedLinks 0 := by
  decide

/-- C12, amended: for a list of at least two entries the selected position
changes at every UTC day boundary, and every instant of UTC day `d` selects what
day `d` selects. The selected URL changes at every day boundary exactly when no
entry of the list equals the entry that follows it, the first entry following
the last; in particular it does when the entries are pairwise distinct. -/
theorem selection_changes_at_day_boundary (L : List String) (hlen : 2 ≤ L.length) :
    (∀ d, selectedIndex L (d + 1) ≠ selectedIndex L d) ∧
      (∀ d now, 86400000 * d ≤ now → now < 86400000 * (d + 1) →
        selectURL L (daysSinceEpochUTC now) = selectURL L d) ∧
      ((∀ d, selectURL L (d + 1) ≠ selectURL L d) ↔
        ∀ i, i < L.length → L[(i + 1) % L.length]? ≠ L[i]?) ∧
      (L.Nodup → ∀ d, selectURL L (d + 1) ≠ selectURL L d) := by
  have hpos : 0 < L.length := by omega
  have hidx : ∀ d, (d + 1) % L.length ≠ d % L.length := by
    intro d
    have hr : d % L.length < L.length := Nat.mod_lt d hpos
    have h1 : 1 % L.length = 1 := Nat.mod_eq_of_lt (by omega)
    rw [Nat.add_mod, h1]
    by_cases hw : d % L.length + 1 < L.length
    · rw [Nat.mod_eq_of_lt hw]
      omega
    · have : d % L.length + 1 = L.length := by omega
      rw [this, Nat.mod_self]
      omega
  refine ⟨hidx, ?_, ⟨?_, ?_⟩, ?_⟩
  · intro d now h1 h2
    have : daysSinceEpochUTC now = d := by
      unfold daysSinceEpochUTC
      omega
    rw [this]
  · intro h i hi
    have hd := h i
    unfold selectURL at hd
    rwa [Nat.mod_eq_of_lt hi] at hd
  · intro h d
    have hd := h (d % L.length) (Nat.mod_lt d hpos)
    unfold selectURL
    rwa [Nat.mod_add_mod] at hd
  · intro hnd d
    unfold selectURL
    rw [List.getElem?_eq_getElem (Nat.mod_lt (d + 1) hpos),
      List.getElem?_eq_getElem (Nat.mod_lt d hpos)]
    intro h
    exact hidx d ((hnd.getElem_inj_iff).mp (Option.some.inj h))

/-- Witness for C12, amended: the list `[a, b, c]` selects `b` on day 7 and `c`
on day 8, and the first millisecond of day 7 selects `b`; the list `[a, a]`
is at another position on day 1 than on day 0. -/
theorem selection_changes_example :
    selectedIndex promoLinks (7 + 1) ≠ selectedIndex promoLinks 7 ∧
      selectURL promoLinks (7 + 1) ≠ selectURL promoLinks 7 ∧
      selectURL promoLinks (daysSinceEpochUTC 604800000) = selectURL promoLinks 7 ∧
      selectedIndex repeatedLinks (0 + 1) ≠ selectedIndex repeatedLinks 0 := by
  have h := selection_changes_at_day_boundary promoLinks (by decide)
  exact ⟨h.1 7, h.2.2.2 (by decide) 7, h.2.1 7 604800000 (by decide) (by decide),
    (selection_changes_at_day_boundary repeatedLinks (by decide)).1 0⟩

/-- C13, the failing input: an `<area>` marked `promo` that has the `href`
`/old` is not an `<a>`; with the mapping `promo: [a, b, c]` on day 7 the pass
writes the selected URL `https://b.example` to its `href` and leaves
`data-daily-selected` absent. -/
theorem marked_area_keeps_link_in_href :
    isAnchor (exampleElement "AREA" (some "promo") (some "/old")) = false ∧
      selectURL promoLinks 7 = some "https://b.example" ∧
      updateOnce (exampleWindow false false) 7
          (single (exampleElement "AREA" (some "promo") (some "/old"))) =
        .returned (single (exampleElement "AREA" (some "promo") (some "https://b.example"))) ∧
      (exampleElement "AREA" (some "promo") (some "https://b.example")).dailySelected = none := by
  decide

/-- Counterexample to C14 as stated: in the mapping `promo: [a, b, c]`,
`wrap: []` the group `wrap` has an empty list, and the `<div>` marked `wrap`
holds the text `see ` and a mirroring `<a>` marked `promo`. On day 7 the
group-update phase changes the text content of the `<div>` from `see link` to
`see https://b.example`. -/
theorem empty_group_container_text_changes :
    getProp (currentMapping (wrapWindow promoLinks [])).own "wrap" = some [] ∧
      textContent (nestedDocument (some "wrap")) = "see link" ∧
      (∃ doc1 el1 children1,
        groupUpdates (wrapWindow promoLinks [])
            (currentMapping (wrapWindow promoLinks [])).own 7 (nestedDocument (some "wrap")) =
          .returned doc1 ∧
        elementAt doc1 [0] = some (el1, children1) ∧
        el1.dailyGroup = some "wrap" ∧
        textContent children1 = "see https://b.example") := by
  refine ⟨by decide, by decide, _, _, _, rfl, rfl, by decide, by decide⟩

/-- C14, amended: let group `g` have an empty list in the mapping. The
callback of the group-update phase returns at `g` with the document as it is,
for every document. When the group names of the mapping are plain, the pass
raises no error, and the group-update phase leaves an element marked `g` that
lies in no mirroring element with its attributes; its children are what the
phase makes of them: the same text content when no element inside it mirrors,
the same children when no element inside it is marked with a group of non-empty
list. When `g` is the default group, bulk replacement changes nothing. -/
theorem empty_group_is_inert (w : Window) (d : Nat) (g : String)
    (hg : getProp (currentMapping w).own g = some []) :
    (∀ doc, updateGroup w (currentMapping w).own d doc g = .returned doc) ∧
      (plainKeys (currentMapping w).own = true →
        ∀ doc : Document,
          (∃ doc2, updateOnce w d doc = .returned doc2) ∧
          ∀ (path : List Nat) (el : Element) (children : Forest),
            elementAt doc path = some (el, children) → el.dailyGroup = some g →
            (∀ a ∈ ancestorsAt doc path, mirrors (currentMapping w).own a = false) →
            ∃ doc1 children1,
              groupUpdates w (currentMapping w).own d doc = .returned doc1 ∧
              elementAt doc1 path = some (el, children1) ∧
              groupUpdates w (currentMapping w).own d children = .returned children1 ∧
              ((∀ e ∈ elements children, mirrors (currentMapping w).own e = false) →
                textContent children1 = textContent children) ∧
              ((∀ e ∈ elements children, served (currentMapping w).own e = false) →
                children1 = children)) ∧
      (defaultGroup w (currentMapping w).own = some g →
        ∀ doc, bulkReplace w (currentMapping w) d doc = doc) := by
  refine ⟨?_, ?_, ?_⟩
  · intro doc
    simp only [updateGroup, hg, List.length_nil, if_true]
  · intro hplain doc
    refine ⟨⟨_, updateOnce_plain w d doc hplain⟩, ?_⟩
    intro path el children hp hm hanc
    have hns : served (currentMapping w).own el = false := by
      simp [served, hm, hg]
    obtain ⟨doc1, children1, h1, h2, h3, _⟩ :=
      elementAt_groupUpdates w (currentMapping w).own d doc path el children hplain hp hanc
    rw [groupStep_of_not_served _ d el hns] at h2
    have hc := h3 (mirrors_of_not_served _ el hns)
    refine ⟨doc1, children1, h1, h2, hc, ?_, ?_⟩
    · intro hdesc
      rw [groupUpdates_plain w _ d children hplain] at hc
      cases hc
      exact textContent_transform _ _ (fun e he => (groupStep_snd _ d e).mpr (hdesc e he))
    · intro hdesc
      rw [groupUpdates_plain w _ d children hplain] at hc
      cases hc
      exact transform_eq_self _ _ (fun e he => groupStep_of_not_served _ d e (hdesc e he))
  · intro hdg doc
    have hb : bulkURL w (currentMapping w) d = none := by
      unfold bulkURL
      simp only [hdg, hg, List.length_nil]
      split_ifs <;> rfl
    simp only [bulkReplace, hb]

/-- Witness for C14, amended: with the mapping `promo: [a, b, c]`, `wrap: []`
the callback of the group-update phase returns at `wrap` with the nested
document as it is, and the pass over that document returns. -/
theorem empty_group_is_inert_example :
    updateGroup (wrapWindow promoLinks []) (currentMapping (wrapWindow promoLinks [])).own 7
        (nestedDocument (some "wrap")) "wrap" = .returned (nestedDocument (some "wrap")) ∧
      ∃ doc2, updateOnce (wrapWindow promoLinks []) 7 (nestedDocument (some "wrap")) =
        .returned doc2 :=
  ⟨(empty_group_is_inert (wrapWindow promoLinks []) 7 "wrap" (by decide)).1 _,
    ((empty_group_is_inert (wrapWindow promoLinks []) 7 "wrap" (by decide)).2.1 (by decide)
      (nestedDocument (some "wrap"))).1⟩

/-- Counterexample to C15 as stated: the override is set to the empty string,
which names no group of the mapping `promo: [a, b, c]`; bulk replacement falls
back to the first key `promo` and gives the unmarked external `<a>` the `href`
`https://b.example`. -/
theorem empty_override_falls_back_to_first_key :
    (overrideWindow "").DAILY_DEFAULT_GROUP = some "" ∧
      getProp (currentMapping (overrideWindow "")).own "" = none ∧
      updateOnce (overrideWindow "") 7 (single (exampleAnchor "https://external.example/x" "")) =
        .returned (single (exampleAnchor "https://b.example" "")) := by
  decide

/-- C15, amended: with bulk replacement enabled, when the override is a
non-empty string that names an own group of the mapping with a non-empty list,
the URL applied is the selection from that list alone; when it names an own group
with an empty list, or a name found neither among the own groups nor on the
prototype chain of the mapping, bulk replacement changes nothing, with no
fallback to the first key. When the override is not set or is the empty string,
the URL applied is the selection from the list of the first enumerated key,
for a first key other than the empty string. -/
theorem default_group_resolution (w : Window) (o : LinkObject) (d : Nat)
    (hflag : w.DAILY_REPLACE_ALL = true) :
    (∀ g, w.DAILY_DEFAULT_GROUP = some g → g ≠ "" →
        (∀ L, getProp o.own g = some L → L ≠ [] → bulkURL w o d = selectURL L d) ∧
        ((getProp o.own g = some [] ∨ (getProp o.own g = none ∧ o.inherited g = none)) →
          ∀ doc, bulkReplace w o d doc = doc)) ∧
      ((w.DAILY_DEFAULT_GROUP = none ∨ w.DAILY_DEFAULT_GROUP = some "") →
        ∀ k, (objectKeys o.own).head? = some k → k ≠ "" →
          ∀ L, getProp o.own k = some L → L ≠ [] → bulkURL w o d = selectURL L d) := by
  refine ⟨?_, ?_⟩
  · intro g hov hne
    have hdef : defaultGroup w o.own = some g := by
      simp only [defaultGroup, hov, hne, ne_eq, not_false_eq_true, if_true]
    refine ⟨?_, ?_⟩
    · intro L hg hL
      exact bulkURL_eq_selectURL w o d g L hflag hdef hne hg hL
    · intro habs doc
      apply bulkReplace_of_none
      rcases habs with h | ⟨h, hi⟩
      · simp only [bulkURL, hflag, if_true, hdef, hne, if_false, h, List.length_nil]
      · simp only [bulkURL, hflag, if_true, hdef, hne, if_false, h, hi]
  · intro hov k hk hne L hg hL
    have hdef : defaultGroup w o.own = some k := by
      rcases hov with h | h
      · simp only [defaultGroup, h, hk]
      · simp only [defaultGroup, h, ne_eq, not_true_eq_false, if_false, hk]
    exact bulkURL_eq_selectURL w o d k L hflag hdef hne hg hL

/-- Witness for C15, amended: on the example page with bulk replacement enabled
and the mapping `main: [z]`, `promo: [a, b, c]`, the override `promo` makes bulk
replacement apply `https://b.example` on day 7, the override `other` makes it
change nothing, and without override it applies `https://z.example`. -/
theorem default_group_resolution_example :
    bulkURL (overrideWindow "promo")
        (plainObject [("main", ["https://z.example"]), ("promo", promoLinks)]) 7 =
      some "https://b.example" ∧
    bulkReplace (overrideWindow "other")
        (plainObject [("main", ["https://z.example"]), ("promo", promoLinks)]) 7
        exampleDocument = exampleDocument ∧
    bulkURL (exampleWindow true false)
        (plainObject [("main", ["https://z.example"]), ("promo", promoLinks)]) 7 =
      some "https://z.example" :=
  ⟨((default_group_resolution (overrideWindow "promo")
        (plainObject [("main", ["https://z.example"]), ("promo", promoLinks)]) 7 rfl).1
      "promo" rfl (by decide)).1 promoLinks (by decide) (by decide),
    ((default_group_resolution (overrideWindow "other")
        (plainObject [("main", ["https://z.example"]), ("promo", promoLinks)]) 7 rfl).1
      "other" rfl (by decide)).2 (Or.inr ⟨by decide, rfl⟩) exampleDocument,
    (default_group_resolution (exampleWindow true false)
        (plainObject [("main", ["https://z.example"]), ("promo", promoLinks)]) 7 rfl).2
      (Or.inl rfl) "main" (by decide) (by decide) ["https://z.example"] (by decide)
      (by decide)⟩

/-- Counterexample to C16 as stated: with bulk replacement off and the mapping
`promo: [a, b, c]`, an unmarked `<div>` holds the text `see ` and a mirroring
`<a>` marked `promo`; on day 7 the pass changes the text content of the `<div>`
from `see link` to `see https://b.example`. -/
theorem unmarked_container_text_changes :
    (exampleWindow false false).DAILY_REPLACE_ALL = false ∧
      textContent (nestedDocument none) = "see link" ∧
      (∃ doc1 el1 children1,
        updateOnce (exampleWindow false false) 7 (nestedDocument none) = .returned doc1 ∧
        elementAt doc1 [0] = some (el1, children1) ∧
        el1.dailyGroup = none ∧
        textContent children1 = "see https://b.example") := by
  refine ⟨by decide, by decide, _, _, _, rfl, rfl, by decide, by decide⟩

/-- C16, amended: when the bulk-replace-enable flag is not set and the group
names of the mapping are plain, the pass returns, and an element that does not
carry the marker of a group with a non-empty list and lies in no mirroring
element keeps its attributes, whatever the other flags and the override are.
Its children are what the pass makes of them: the same text content when no
element inside it mirrors, the same children when no element inside it is
marked with a group of non-empty list. -/
theorem pass_without_bulk_flag_frame (w : Window) (d : Nat) (doc : Document)
    (path : List Nat) (el : Element) (children : Forest)
    (hflag : w.DAILY_REPLACE_ALL = false)
    (hplain : plainKeys (currentMapping w).own = true)
    (hp : elementAt doc path = some (el, children))
    (hns : served (currentMapping w).own el = false)
    (hanc : ∀ a ∈ ancestorsAt doc path, mirrors (currentMapping w).own a = false) :
    ∃ doc1 children1, updateOnce w d doc = .returned doc1 ∧
      elementAt doc1 path = some (el, children1) ∧
      updateOnce w d children = .returned children1 ∧
      ((∀ e ∈ elements children, mirrors (currentMapping w).own e = false) →
        textContent children1 = textContent children) ∧
      ((∀ e ∈ elements children, served (currentMapping w).own e = false) →
        children1 = children) := by
  obtain ⟨doc1, children1, h1, h2, h3, _⟩ :=
    elementAt_updateOnce w d doc path el children hplain hp hanc
  rw [passStep_of_flag_off w d el hflag, groupStep_of_not_served _ d el hns] at h2
  have hc := h3 (mirrors_of_not_served _ el hns)
  refine ⟨doc1, children1, h1, h2, hc, ?_, ?_⟩
  · intro hdesc
    rw [updateOnce_plain w d children hplain] at hc
    cases hc
    exact textContent_transform _ _ (fun e he => by
      rw [passStep_snd]
      exact (groupStep_snd _ d e).mpr (hdesc e he))
  · intro hdesc
    rw [updateOnce_plain w d children hplain] at hc
    cases hc
    exact transform_eq_self _ _ (fun e he => by
      rw [passStep_of_flag_off w d e hflag]
      exact groupStep_of_not_served _ d e (hdesc e he))

/-- Witness for C16, amended: with bulk replacement off, the unmarked `<a>`
that points to another host keeps its `href` and its children through the pass
on day 7. -/
theorem pass_without_bulk_flag_example :
    ∃ doc1, updateOnce (exampleWindow false true) 7 emptyNameDocument = .returned doc1 ∧
      elementAt doc1 [1] =
        some (exampleAnchor "https://external.example/x" "", .text "out" .nil) := by
  obtain ⟨doc1, children1, h1, h2, _, _, h5⟩ :=
    pass_without_bulk_flag_frame (exampleWindow false true) 7 emptyNameDocument [1]
      (exampleAnchor "https://external.example/x" "") (.text "out" .nil)
      (by decide) (by decide) (by decide) (by decide) (by decide)
  exact ⟨doc1, h1, (h5 (by decide)) ▸ h2⟩

/-- C17: selection cycles through the list.  For a non-empty list `L` and any
day `d`, day `d + len(L)` selects what day `d` selects; over the `len(L)`
consecutive days from `d` the selected positions are `0, ..., len(L) - 1`
rotated to start at `d mod len(L)`, so every position is selected exactly once,
in list order and wrapping from the last entry to the first; the selected URLs
are `L` rotated the same way. -/
theorem selection_cycles (L : List String) (d : Nat) (hL : L ≠ []) :
    selectURL L (d + L.length) = selectURL L d ∧
      ((List.range L.length).map fun k => selectedIndex L (d + k)) =
        (List.range L.length).rotate (selectedIndex L d) ∧
      ((List.range L.length).map fun k => selectedIndex L (d + k)).Perm
        (List.range L.length) ∧
      ((List.range L.length).map fun k => selectURL L (d + k)) =
        (L.rotate (selectedIndex L d)).map some ∧
      selectedIndex L (d + 1) =
        (if selectedIndex L d + 1 = L.length then 0 else selectedIndex L d + 1) := by
  have hpos : 0 < L.length := List.length_pos.mpr hL
  have hrot : ((List.range L.length).map fun k => selectedIndex L (d + k)) =
      (List.range L.length).rotate (selectedIndex L d) := by
    apply List.ext_getElem?
    intro n
    by_cases hn : n < L.length
    · rw [List.getElem?_map, List.getElem?_range hn,
        List.getElem?_rotate (by rw [List.length_range]; exact hn), List.length_range,
        List.getElem?_range (Nat.mod_lt _ hpos), selectedIndex_add]
      rfl
    · rw [List.getElem?_eq_none (by simp; omega), List.getElem?_eq_none (by simp; omega)]
  refine ⟨?_, hrot, ?_, ?_, ?_⟩
  · unfold selectURL
    rw [Nat.add_mod_right]
  · rw [hrot]
    exact List.rotate_perm _ _
  · apply List.ext_getElem?
    intro n
    by_cases hn : n < L.length
    · rw [List.getElem?_map, List.getElem?_range hn, List.getElem?_map,
        List.getElem?_rotate hn, selectedIndex_add]
      simp only [Option.map_some', selectURL, selectedIndex]
      rw [List.getElem?_eq_getElem (Nat.mod_lt _ hpos)]
      rfl
    · rw [List.getElem?_eq_none (by simp; omega), List.getElem?_eq_none (by simp; omega)]
  · have hr : d % L.length < L.length := Nat.mod_lt d hpos
    unfold selectedIndex
    by_cases hw : d % L.length + 1 = L.length
    · rw [if_pos hw, Nat.add_mod]
      by_cases h1 : L.length = 1
      · rw [h1]
        exact Nat.mod_one _
      · rw [Nat.mod_eq_of_lt (by omega : 1 < L.length), hw, Nat.mod_self]
    · rw [if_neg hw, Nat.add_mod, Nat.mod_eq_of_lt (by omega : 1 < L.length),
        Nat.mod_eq_of_lt (by omega)]

/-- Witness for C17: for the list `[a, b, c]` and day 7, day 10 selects what day
7 selects, and days 7, 8, 9 select the positions 1, 2, 0, that is `b`, `c`,
`a`. -/
theorem selection_cycles_example :
    selectURL promoLinks (7 + 3) = selectURL promoLinks 7 ∧
      ((List.range 3).map fun k => selectedIndex promoLinks (7 + k)) = [1, 2, 0] ∧
      ((List.range 3).map fun k => selectURL promoLinks (7 + k)) =
        [some "https://b.example", some "https://c.example", some "https://a.example"] := by
  have h := selection_cycles promoLinks 7 (by decide)
  exact ⟨h.1, h.2.1.trans (by decide), h.2.2.2.1.trans (by decide)⟩

/-- C18, the failing input: on the example page with bulk replacement enabled
and the override `constructor`, the mapping `promo: [a, b, c]` has no own
property of that name, the bulk-replacement phase finds the member of
`Object.prototype` instead, selects from it a value that is `undefined`, and
assigns the string `undefined` to the `href` of the unmarked external `<a>`. -/
theorem inherited_default_group_applies_undefined :
    getProp (currentMapping (overrideWindow "constructor")).own "constructor" = none ∧
      bulkURL (overrideWindow "constructor") (currentMapping (overrideWindow "constructor")) 7 =
        some "undefined" ∧
      updateOnce (overrideWindow "constructor") 7
          (single (exampleAnchor "https://external.example/x" "")) =
        .returned (single (exampleAnchor "undefined" "")) := by
  decide

/-- C19: the same-site test compares host names only.  An anchor whose `href`
is an absolute http(s) URL that resolves to the host name of the page is
treated as internal, eligible exactly when its target is `_blank` and the
allow-internal-new-tab flag is set, whatever the port and the scheme of the
resolved URL are. -/
theorem same_hostname_is_internal (w : Window) (a : Element) (raw : String) (u : URLRecord)
    (hraw : a.href = some raw) (habs : isAbsoluteHttp (toLowerCase (trim raw)) = true)
    (hu : w.newURL raw = some u) (hhost : u.hostname = w.location.hostname) :
    (shouldReplaceAnchor w a = true ↔
        a.target = "_blank" ∧ w.DAILY_REPLACE_INTERNAL_BLANK = true) ∧
      (w.DAILY_REPLACE_INTERNAL_BLANK = false → shouldReplaceAnchor w a = false) := by
  have key : shouldReplaceAnchor w a = internalAllowed w a := by
    rw [shouldReplaceAnchor_of_absolute w a raw hraw habs, hu]
    simp only [hhost, if_true]
  refine ⟨?_, ?_⟩
  · rw [key]
    exact internalAllowed_iff w a
  · intro hoff
    rw [key]
    simp [internalAllowed, hoff]

/-- Witness for C19: on the page at `http://localhost:8000/` with the flag off,
the anchors to `http://localhost:9000/x` (another port) and to
`https://localhost/x` (another scheme) are ineligible, even with target
`_blank`. -/
theorem same_hostname_other_port_example :
    (localhostNewURL "http://localhost:9000/x" =
          some ⟨"http:", "localhost", "9000"⟩ ∧
        (localhostWindow false).location = ⟨"http:", "localhost", "8000"⟩) ∧
      shouldReplaceAnchor (localhostWindow false)
        (exampleAnchor "http://localhost:9000/x" "_blank") = false ∧
      shouldReplaceAnchor (localhostWindow false)
        (exampleAnchor "https://localhost/x" "") = false :=
  ⟨⟨by decide, rfl⟩,
    (same_hostname_is_internal (localhostWindow false)
      (exampleAnchor "http://localhost:9000/x" "_blank") "http://localhost:9000/x"
      ⟨"http:", "localhost", "9000"⟩ rfl (by decide) (by decide) (by decide)).2 rfl,
    (same_hostname_is_internal (localhostWindow false)
      (exampleAnchor "https://localhost/x" "") "https://localhost/x"
      ⟨"https:", "localhost", ""⟩ rfl (by decide) (by decide) (by decide)).2 rfl⟩

/-- C20, the failing input: on a page with bulk replacement enabled whose
mapping is `{"": ["https://z.example"], promo: [a, b, c]}`, the default group is
the first key, the empty string, and its list is not empty. On day 7 the
group-update phase gives the `<a>` marked `promo` the `href`
`https://b.example`, for which `shouldReplaceAnchor` holds; the guard of line
55 then stops bulk replacement, and the anchor ends the pass with the URL of
`promo`, not with `https://z.example`. -/
theorem empty_group_name_does_not_override :
    (objectKeys (currentMapping (emptyNameWindow [("promo", promoLinks)])).own).head? =
        some "" ∧
      getProp (currentMapping (emptyNameWindow [("promo", promoLinks)])).own "" =
        some ["https://z.example"] ∧
      shouldReplaceAnchor (emptyNameWindow [("promo", promoLinks)])
          (exampleElement "A" (some "promo") (some "https://b.example")) = true ∧
      updateOnce (emptyNameWindow [("promo", promoLinks)]) 7
          (single (exampleElement "A" (some "promo") none)) =
        .returned (single (exampleElement "A" (some "promo") (some "https://b.example"))) := by
  decide

end DailyLinks
